import Mathlib

/-!
Verification development for the AlphaStrategyLab backtesting engine.

The definitions below are shallow embeddings of the Python source:

* `src/gpu_server/gpu_engine/engine.py` — the GPU backtest engine with its
  three execution paths (`_execute_on_gpu` via the CUDA kernels of
  `src/gpu_server/gpu_engine/kernels.py`, `_execute_on_cupy`, and
  `_execute_on_cpu`), trade generation (`_generate_trades`) and the job
  worker (`_process_jobs`, `cancel_job`).
* `src/engine/cuda_kernels.py` — the per-strategy CUDA kernels of the
  second engine.
* `src/strategies/*.py` — per-strategy parameter validation.
* `src/utils/metrics.py` and `src/gpu_server/gpu_engine/metrics.py` —
  the two metrics calculators.

Prices, parameters and money amounts are embedded as exact rationals;
quantities whose computation takes a square root (standard deviations,
z-scores, Sharpe/Sortino ratios) live in `ℝ` via `Real.sqrt`.  Division by
zero follows Lean's `x / 0 = 0` convention.  A float `NaN` produced by
pandas (an incomplete rolling window, a zero standard deviation under a
z-score) is embedded as `Option.none`, and comparisons against `none` are
false, exactly as every comparison against `NaN` is false in numpy/pandas.
-/

/-- `np.sign` on rationals. -/
def ratSign (q : ℚ) : ℚ :=
  if 0 < q then 1 else if q < 0 then -1 else 0

/-- Arithmetic mean of a list (`np.mean`; `0` on the empty list by the
division convention). -/
def listMean (xs : List ℚ) : ℚ :=
  xs.sum / (xs.length : ℚ)

/-- Sample variance, `ddof=1` (`np.var(xs, ddof=1)`, the square of
`np.std(xs, ddof=1)` and of `pandas.rolling(...).std()`). -/
def sampleVariance (xs : List ℚ) : ℚ :=
  ((xs.map fun x => (x - listMean xs) ^ 2).sum) / ((xs.length : ℚ) - 1)

/-- Population variance, `ddof=0` (`np.std(xs)` squared; the CUDA kernels
divide the squared deviations by `window`). -/
def popVariance (xs : List ℚ) : ℚ :=
  ((xs.map fun x => (x - listMean xs) ^ 2).sum) / (xs.length : ℚ)

/-- The `w` closes ending at index `i` (inclusive), the window read by every
rolling statistic in the source. -/
def rollingWindow (closes : List ℚ) (w i : ℕ) : List ℚ :=
  (closes.drop (i + 1 - w)).take w

/-- `pandas.Series.rolling(window=w).mean()` at index `i`: `none` is the NaN
produced while fewer than `w` bars are available. -/
def rollingMean (closes : List ℚ) (w i : ℕ) : Option ℚ :=
  if i + 1 < w then none else some (listMean (rollingWindow closes w i))

/-!
### MovingAverageCrossover, sequential scalar path

`GPUBacktestEngine._execute_on_cpu` (engine.py 905-928): pandas rolling
means, then a loop from `long_window`; a bar signals +1 when
`short_ma > long_ma and abs(short_ma - long_ma) > signal_threshold * close`,
-1 symmetrically, else 0 with the position carried forward.  A NaN rolling
mean (possible when `short_window > long_window`) fails every comparison.
-/

/-- Signal of `_execute_on_cpu`, `MovingAverageCrossover` branch, at bar `i`. -/
def cpuMovingAvgSignal (closes : List ℚ) (sw lw : ℕ) (θ : ℚ) (i : ℕ) : ℚ :=
  if i < lw then 0 else
    match rollingMean closes sw i, rollingMean closes lw i with
    | some s, some l =>
        if s > l ∧ |s - l| > θ * closes.getD i 0 then 1
        else if s < l ∧ |s - l| > θ * closes.getD i 0 then -1
        else 0
    | _, _ => 0

/-- Position of `_execute_on_cpu`, `MovingAverageCrossover` branch:
`previous_position` always equals the previously written entry, so the
loop is the recursion below. -/
def cpuMovingAvgPosition (closes : List ℚ) (sw lw : ℕ) (θ : ℚ) : ℕ → ℚ
  | 0 => if 0 < lw then 0 else cpuMovingAvgSignal closes sw lw θ 0
  | i + 1 =>
      if i + 1 < lw then 0
      else if cpuMovingAvgSignal closes sw lw θ (i + 1) ≠ 0 then
        cpuMovingAvgSignal closes sw lw θ (i + 1)
      else cpuMovingAvgPosition closes sw lw θ i

/-!
### MovingAverageCrossover, parallel device kernel of the GPU server

`moving_avg_crossover` in gpu_server/gpu_engine/kernels.py 33-95: each bar
index recomputes both full windows, gates by
`fabsf(short_ma - long_ma) > signal_threshold * close`, and forward-fills
`positions[idx - 1]` (read here in its sequential interpretation).
-/

/-- Signal of the `moving_avg_crossover` CUDA kernel at bar `idx`. -/
def kernelMovingAvgSignal (closes : List ℚ) (sw lw : ℕ) (θ : ℚ) (idx : ℕ) : ℚ :=
  if idx < lw then 0 else
    let s := listMean (rollingWindow closes sw idx)
    let l := listMean (rollingWindow closes lw idx)
    if s > l ∧ |s - l| > θ * closes.getD idx 0 then 1
    else if s < l ∧ |s - l| > θ * closes.getD idx 0 then -1
    else 0

/-- Position of the `moving_avg_crossover` CUDA kernel. -/
def kernelMovingAvgPosition (closes : List ℚ) (sw lw : ℕ) (θ : ℚ) : ℕ → ℚ
  | 0 => if 0 < lw then 0
         else if kernelMovingAvgSignal closes sw lw θ 0 ≠ 0 then
           kernelMovingAvgSignal closes sw lw θ 0
         else 0
  | idx + 1 =>
      if idx + 1 < lw then 0
      else if kernelMovingAvgSignal closes sw lw θ (idx + 1) ≠ 0 then
        kernelMovingAvgSignal closes sw lw θ (idx + 1)
      else kernelMovingAvgPosition closes sw lw θ idx

/-!
### MovingAverageCrossover, CUDA kernel of src/engine/cuda_kernels.py

`moving_average_crossover` (cuda_kernels.py 10-63): same windows but the
plain gating `diff > signal_threshold` / `diff < -signal_threshold`,
without the `* close` factor.
-/

/-- Signal of the `moving_average_crossover` kernel of
src/engine/cuda_kernels.py at bar `idx`. -/
def cudaMovingAverageCrossoverSignal (closes : List ℚ) (sw lw : ℕ) (θ : ℚ)
    (idx : ℕ) : ℚ :=
  if idx < lw then 0 else
    let diff := listMean (rollingWindow closes sw idx)
      - listMean (rollingWindow closes lw idx)
    if diff > θ then 1 else if diff < -θ then -1 else 0

/-- Position of the `moving_average_crossover` kernel of
src/engine/cuda_kernels.py. -/
def cudaMovingAverageCrossoverPosition (closes : List ℚ) (sw lw : ℕ) (θ : ℚ) :
    ℕ → ℚ
  | 0 => 0
  | idx + 1 =>
      if idx + 1 < lw then 0
      else if cudaMovingAverageCrossoverSignal closes sw lw θ (idx + 1) ≠ 0 then
        cudaMovingAverageCrossoverSignal closes sw lw θ (idx + 1)
      else cudaMovingAverageCrossoverPosition closes sw lw θ idx

/-!
### Position forward-fill

`_execute_on_cupy` (engine.py 873-878) converts any signal array to
positions: `positions[0]` stays 0, and for `i ≥ 1` the position is the
signal when nonzero, else the previous position.
-/

/-- The forward-fill loop body, carrying the previous position. -/
def forwardFillAux (prev : ℚ) : List ℚ → List ℚ
  | [] => []
  | s :: rest =>
      (if s ≠ 0 then s else prev) :: forwardFillAux (if s ≠ 0 then s else prev) rest

/-- Signal-to-position forward-fill of `_execute_on_cupy` (engine.py
873-878): the first position stays at its zero initialisation. -/
def forwardFillPositions : List ℚ → List ℚ
  | [] => []
  | _ :: rest => 0 :: forwardFillAux 0 rest

theorem forwardFillAux_length (prev : ℚ) (l : List ℚ) :
    (forwardFillAux prev l).length = l.length := by
  induction l generalizing prev with
  | nil => rfl
  | cons s rest ih => simp [forwardFillAux, ih]

theorem forwardFillPositions_length (l : List ℚ) :
    (forwardFillPositions l).length = l.length := by
  cases l with
  | nil => rfl
  | cons s rest => simp [forwardFillPositions, forwardFillAux_length]

theorem forwardFillAux_getD_zero (prev s : ℚ) (rest : List ℚ) :
    (forwardFillAux prev (s :: rest)).getD 0 0 = if s ≠ 0 then s else prev := by
  simp [forwardFillAux]

theorem forwardFillAux_getD_succ (prev : ℚ) (l : List ℚ) (i : ℕ)
    (h : i + 1 < l.length) :
    (forwardFillAux prev l).getD (i + 1) 0
      = (if l.getD (i + 1) 0 ≠ 0 then l.getD (i + 1) 0
         else (forwardFillAux prev l).getD i 0) := by
  induction l generalizing prev i with
  | nil => simp at h
  | cons s rest ih =>
    cases i with
    | zero =>
      cases rest with
      | nil => simp at h
      | cons r0 rest' => simp [forwardFillAux]
    | succ j =>
      have hj : j + 1 < rest.length := by simpa using h
      simpa [forwardFillAux] using ih (if s ≠ 0 then s else prev) j hj

/-!
### MovingAverageCrossover, vectorized CuPy path

`GPUBacktestEngine._execute_on_cupy` (engine.py 765-783): both moving
averages come from `convolve(..., mode='valid')` — lengths `n - sw + 1`
and `n - lw + 1` — and are then both padded on the left with
`max(short_window, long_window) - 1` NaNs, giving arrays of different
lengths whenever `short_window ≠ long_window`.  The subtraction
`short_ma[long_window:] - long_ma[long_window:]` then raises a numpy
broadcast `ValueError`, so for every valid parameter pair
(`short_window < long_window`) this branch errors out before producing
any signal array.  A NaN pad entry is embedded as `none`; the `ok` branch
is reachable only for `short_window = long_window`, where the slices are
aligned and NaN-free from the pad on, the threshold `where` zeroing
applies to every bar (a NaN comparison keeps the existing zero), and the
positions come from the forward-fill loop of engine.py 873-878.
-/

/-- `_execute_on_cupy`, `MovingAverageCrossover` branch: the convolved and
padded moving averages, the shape check of the numpy subtraction, and —
when the shapes agree — the signal and forward-filled position arrays. -/
def cupyMovingAvgCrossover (closes : List ℚ) (sw lw : ℕ) (θ : ℚ) :
    Except String (List ℚ × List ℚ) :=
  let n := closes.length
  let shortValid := (List.range (n - sw + 1)).map fun j =>
    listMean ((closes.drop j).take sw)
  let longValid := (List.range (n - lw + 1)).map fun j =>
    listMean ((closes.drop j).take lw)
  let padLength := max sw lw - 1
  let shortMa := List.replicate padLength (none : Option ℚ) ++ shortValid.map some
  let longMa := List.replicate padLength (none : Option ℚ) ++ longValid.map some
  if (shortMa.drop lw).length ≠ (longMa.drop lw).length then
    Except.error "operands could not be broadcast together"
  else
    let signals := (List.range n).map fun i =>
      match shortMa.getD i none, longMa.getD i none with
      | some s, some l =>
          if |s - l| < θ * closes.getD i 0 then 0
          else if lw ≤ i then ratSign (s - l) else 0
      | _, _ => 0
    Except.ok (signals, forwardFillPositions signals)

theorem cupyMovingAvgCrossover_raises (closes : List ℚ) (sw lw : ℕ) (θ : ℚ)
    (hsw : sw < lw) (hlw : lw ≤ closes.length) :
    cupyMovingAvgCrossover closes sw lw θ
      = Except.error "operands could not be broadcast together" := by
  have hmax : max sw lw = lw := Nat.max_eq_right (Nat.le_of_lt hsw)
  simp only [cupyMovingAvgCrossover, hmax, List.length_drop, List.length_append,
    List.length_replicate, List.length_map, List.length_range]
  rw [if_pos (by omega)]

/-- The close-price series of the specification's MovingAverageCrossover
scenario. -/
def scenarioCloses : List ℚ := [5, 5, 5, 10, 10, 10, 5, 5, 5]

/-- C1: the backend-parity contract fails on the code.  On the scenario
closes with `short_window=2, long_window=3, signal_threshold=0`, the
sequential scalar path and the device kernel both produce signal and
position `+1` at index 3, but the vectorized CuPy path raises a broadcast
error — its two padded moving-average arrays have lengths 10 and 9 — and
so produces no signal or position arrays at all. -/
theorem C1_cupy_backend_failure :
    cupyMovingAvgCrossover scenarioCloses 2 3 0
      = Except.error "operands could not be broadcast together"
    ∧ cpuMovingAvgSignal scenarioCloses 2 3 0 3 = 1
    ∧ cpuMovingAvgPosition scenarioCloses 2 3 0 3 = 1
    ∧ kernelMovingAvgSignal scenarioCloses 2 3 0 3 = 1 := by
  refine ⟨cupyMovingAvgCrossover_raises scenarioCloses 2 3 0 (by norm_num)
    (by norm_num [scenarioCloses]), ?_, ?_, ?_⟩
  · norm_num [cpuMovingAvgSignal, rollingMean, rollingWindow, listMean,
      scenarioCloses]
  · norm_num [cpuMovingAvgPosition, cpuMovingAvgSignal, rollingMean,
      rollingWindow, listMean, scenarioCloses]
  · norm_num [kernelMovingAvgSignal, rollingWindow, listMean, scenarioCloses]

/-- C3: the MovingAverageCrossover scenario.  On closes
`[5,5,5,10,10,10,5,5,5]` with `short_window=2, long_window=3,
signal_threshold=0`, both the sequential scalar path of the GPU-server
engine and the `moving_average_crossover` CUDA kernel of
src/engine/cuda_kernels.py produce signals `[0,0,0,1,1,0,-1,-1,0]` and
positions `[0,0,0,1,1,1,-1,-1,-1]`. -/
theorem C3_moving_average_scenario :
    ((List.range 9).map (cpuMovingAvgSignal scenarioCloses 2 3 0)
        = [0, 0, 0, 1, 1, 0, -1, -1, 0]
      ∧ (List.range 9).map (cpuMovingAvgPosition scenarioCloses 2 3 0)
        = [0, 0, 0, 1, 1, 1, -1, -1, -1])
    ∧ ((List.range 9).map (cudaMovingAverageCrossoverSignal scenarioCloses 2 3 0)
        = [0, 0, 0, 1, 1, 0, -1, -1, 0]
      ∧ (List.range 9).map (cudaMovingAverageCrossoverPosition scenarioCloses 2 3 0)
        = [0, 0, 0, 1, 1, 1, -1, -1, -1]) := by
  norm_num [List.range_succ, cpuMovingAvgSignal, cpuMovingAvgPosition,
    cudaMovingAverageCrossoverSignal, cudaMovingAverageCrossoverPosition,
    rollingMean, rollingWindow, listMean, scenarioCloses]


/-!
### MeanReversion, sequential scalar path

`_execute_on_cpu` (engine.py 975-1001): z-score from pandas rolling mean
and rolling sample standard deviation; buy below `-entry_threshold`, sell
above `entry_threshold`, and — unlike the pure forward-fill — an explicit
exit to a flat position when `|z| < exit_threshold`.  The z-score is NaN
(`none`) while the window is incomplete and when the rolling standard
deviation is 0 (the window is then constant, so the numerator
`close - ma` is 0 as well and float evaluation gives `0.0/0.0`).
-/

/-- The pandas z-score `(close - ma) / std` of the CPU MeanReversion
branch at bar `i`. -/
noncomputable def cpuMeanReversionZScore (closes : List ℚ) (w i : ℕ) :
    Option ℝ :=
  if i + 1 < w then none
  else if sampleVariance (rollingWindow closes w i) = 0 then none
  else some (((closes.getD i 0 - listMean (rollingWindow closes w i) : ℚ) : ℝ)
    / Real.sqrt ((sampleVariance (rollingWindow closes w i) : ℚ) : ℝ))

/-- Signal of `_execute_on_cpu`, `MeanReversion` branch, at bar `i` (the
exit branch and the hold branch both emit signal 0, so the signal does not
depend on the exit threshold). -/
noncomputable def cpuMeanReversionSignal (closes : List ℚ) (w : ℕ)
    (entryThreshold _exitThreshold : ℚ) (i : ℕ) : ℝ :=
  if i < w then 0 else
    match cpuMeanReversionZScore closes w i with
    | some z =>
        if z < -(entryThreshold : ℝ) then 1
        else if z > (entryThreshold : ℝ) then -1
        else 0
    | none => 0

/-- Position of `_execute_on_cpu`, `MeanReversion` branch: signal branches
set the position, `|z| < exit_threshold` resets it to flat, anything else
(including a NaN z-score) carries the previous position forward. -/
noncomputable def cpuMeanReversionPosition (closes : List ℚ) (w : ℕ)
    (entryThreshold exitThreshold : ℚ) : ℕ → ℝ
  | 0 =>
      if 0 < w then 0
      else
        match cpuMeanReversionZScore closes w 0 with
        | some z =>
            if z < -(entryThreshold : ℝ) then 1
            else if z > (entryThreshold : ℝ) then -1
            else 0
        | none => 0
  | i + 1 =>
      if i + 1 < w then 0
      else
        match cpuMeanReversionZScore closes w (i + 1) with
        | some z =>
            if z < -(entryThreshold : ℝ) then 1
            else if z > (entryThreshold : ℝ) then -1
            else if |z| < (exitThreshold : ℝ) then 0
            else cpuMeanReversionPosition closes w entryThreshold exitThreshold i
        | none => cpuMeanReversionPosition closes w entryThreshold exitThreshold i

/-- Close prices on which the CPU MeanReversion path leaves its exit
branch observable: with `window=5, entry_threshold=1, exit_threshold=1/2`
the z-score at bar 5 is `-4/3` (rolling mean 9, rolling sample standard
deviation 3) and at bar 6 it is `0` (the close equals the rolling mean). -/
def mrCounterCloses : List ℚ := [10, 12, 8, 12, 8, 5, 33 / 4]

theorem mrCounterCloses_zscore_five :
    cpuMeanReversionZScore mrCounterCloses 5 5 = some (-(4 / 3)) := by
  have hwin : rollingWindow mrCounterCloses 5 5 = [12, 8, 12, 8, 5] := by
    simp [rollingWindow, mrCounterCloses]
  have hvar : sampleVariance [12, 8, 12, 8, 5] = 9 := by
    norm_num [sampleVariance, listMean]
  have hsqrt : Real.sqrt (((9 : ℚ) : ℝ)) = 3 := by
    rw [show (((9 : ℚ) : ℝ)) = (3 : ℝ) ^ 2 by norm_num]
    exact Real.sqrt_sq (by norm_num)
  rw [cpuMeanReversionZScore, if_neg (by norm_num), hwin, hvar,
    if_neg (by norm_num), hsqrt]
  norm_num [mrCounterCloses, listMean]

theorem mrCounterCloses_zscore_six :
    cpuMeanReversionZScore mrCounterCloses 5 6 = some 0 := by
  have hwin : rollingWindow mrCounterCloses 5 6 = [8, 12, 8, 5, 33 / 4] := by
    simp [rollingWindow, mrCounterCloses]
  have hvar : sampleVariance [8, 12, 8, 5, 33 / 4] = 99 / 16 := by
    norm_num [sampleVariance, listMean]
  rw [cpuMeanReversionZScore, if_neg (by norm_num), hwin, hvar,
    if_neg (by norm_num)]
  norm_num [mrCounterCloses, listMean]

/-- C2, counterexample: on `mrCounterCloses` with `window=5,
entry_threshold=1, exit_threshold=1/2`, the CPU MeanReversion path holds
position `1` at bar 5, emits signal `0` at bar 6, yet resets the position
to `0` at bar 6 — so `signal[6] = 0` does not imply
`position[6] = position[5]`, refuting the claimed strict forward-fill rule
for this backend. -/
theorem C2_mean_reversion_exit_counterexample :
    cpuMeanReversionPosition mrCounterCloses 5 1 (1 / 2) 5 = 1
    ∧ cpuMeanReversionSignal mrCounterCloses 5 1 (1 / 2) 6 = 0
    ∧ cpuMeanReversionPosition mrCounterCloses 5 1 (1 / 2) 6 = 0
    ∧ cpuMeanReversionPosition mrCounterCloses 5 1 (1 / 2) 6
        ≠ cpuMeanReversionPosition mrCounterCloses 5 1 (1 / 2) 5 := by
  have h5 : cpuMeanReversionPosition mrCounterCloses 5 1 (1 / 2) 5 = 1 := by
    rw [show (5 : ℕ) = 4 + 1 from rfl, cpuMeanReversionPosition,
      if_neg (by norm_num), mrCounterCloses_zscore_five]
    norm_num
  have h6s : cpuMeanReversionSignal mrCounterCloses 5 1 (1 / 2) 6 = 0 := by
    rw [cpuMeanReversionSignal, if_neg (by norm_num),
      mrCounterCloses_zscore_six]
    norm_num
  have h6 : cpuMeanReversionPosition mrCounterCloses 5 1 (1 / 2) 6 = 0 := by
    rw [show (6 : ℕ) = 5 + 1 from rfl, cpuMeanReversionPosition,
      if_neg (by norm_num), mrCounterCloses_zscore_six]
    norm_num
  exact ⟨h5, h6s, h6, by rw [h5, h6]; norm_num⟩


/-!
### Momentum and MeanReversion kernels of src/engine/cuda_kernels.py

`momentum_strategy` (cuda_kernels.py 127-169) and `mean_reversion`
(cuda_kernels.py 172-230).  The mean-reversion kernel uses the population
standard deviation and returns early — leaving signal and position at 0 —
when that deviation is 0.
-/

/-- Signal of the `momentum_strategy` kernel at bar `idx`. -/
def cudaMomentumSignal (closes : List ℚ) (w : ℕ) (θ : ℚ) (idx : ℕ) : ℚ :=
  if idx < w then 0 else
    let momentum := (closes.getD idx 0 - closes.getD (idx - w) 0)
      / closes.getD (idx - w) 0
    if momentum > θ then 1 else if momentum < -θ then -1 else 0

/-- Position of the `momentum_strategy` kernel. -/
def cudaMomentumPosition (closes : List ℚ) (w : ℕ) (θ : ℚ) : ℕ → ℚ
  | 0 => 0
  | idx + 1 =>
      if idx + 1 < w then 0
      else if cudaMomentumSignal closes w θ (idx + 1) ≠ 0 then
        cudaMomentumSignal closes w θ (idx + 1)
      else cudaMomentumPosition closes w θ idx

/-- Signal of the `mean_reversion` kernel at bar `idx`. -/
noncomputable def cudaMeanReversionSignal (closes : List ℚ) (w : ℕ) (zθ : ℚ)
    (idx : ℕ) : ℝ :=
  if idx < w then 0
  else if popVariance (rollingWindow closes w idx) = 0 then 0
  else
    let z := ((closes.getD idx 0 - listMean (rollingWindow closes w idx) : ℚ) : ℝ)
      / Real.sqrt ((popVariance (rollingWindow closes w idx) : ℚ) : ℝ)
    if z > (zθ : ℝ) then -1 else if z < -(zθ : ℝ) then 1 else 0

/-- Position of the `mean_reversion` kernel: the early return on a zero
standard deviation leaves the position at 0 as well. -/
noncomputable def cudaMeanReversionPosition (closes : List ℚ) (w : ℕ) (zθ : ℚ) :
    ℕ → ℝ
  | 0 => 0
  | idx + 1 =>
      if idx + 1 < w then 0
      else if popVariance (rollingWindow closes w (idx + 1)) = 0 then 0
      else if cudaMeanReversionSignal closes w zθ (idx + 1) ≠ 0 then
        cudaMeanReversionSignal closes w zθ (idx + 1)
      else cudaMeanReversionPosition closes w zθ idx

/-!
### The remaining scalar-path branches and CUDA kernels

For the position-invariant coverage of every backend: the Bollinger and
Momentum branches of `_execute_on_cpu` (engine.py 930-973), the
`bollinger_bands`, `momentum_strategy` and `mean_reversion` kernels of
gpu_server/gpu_engine/kernels.py (97-300, read sequentially), and the
`bollinger_bands` kernel of src/engine/cuda_kernels.py (66-124).
-/

/-- Signal of `_execute_on_cpu`, `BollingerBands` branch, at bar `i`
(pandas rolling mean and sample standard deviation). -/
noncomputable def cpuBollingerSignal (closes : List ℚ) (w : ℕ) (numStd : ℚ)
    (i : ℕ) : ℝ :=
  if i < w then 0 else
    if ((closes.getD i 0 : ℚ) : ℝ)
        < ((listMean (rollingWindow closes w i) : ℚ) : ℝ)
          - (numStd : ℝ)
            * Real.sqrt ((sampleVariance (rollingWindow closes w i) : ℚ) : ℝ) then 1
    else if ((closes.getD i 0 : ℚ) : ℝ)
        > ((listMean (rollingWindow closes w i) : ℚ) : ℝ)
          + (numStd : ℝ)
            * Real.sqrt ((sampleVariance (rollingWindow closes w i) : ℚ) : ℝ) then -1
    else 0

/-- Position of `_execute_on_cpu`, `BollingerBands` branch. -/
noncomputable def cpuBollingerPosition (closes : List ℚ) (w : ℕ) (numStd : ℚ) :
    ℕ → ℝ
  | 0 => if 0 < w then 0
         else if cpuBollingerSignal closes w numStd 0 ≠ 0 then
           cpuBollingerSignal closes w numStd 0
         else 0
  | i + 1 =>
      if i + 1 < w then 0
      else if cpuBollingerSignal closes w numStd (i + 1) ≠ 0 then
        cpuBollingerSignal closes w numStd (i + 1)
      else cpuBollingerPosition closes w numStd i

/-- Signal of `_execute_on_cpu`, `MomentumStrategy` branch, at bar `i`
(`pct_change(periods=w)` is `(close[i] - close[i-w]) / close[i-w]`). -/
def cpuMomentumSignal (closes : List ℚ) (w : ℕ) (θ : ℚ) (i : ℕ) : ℚ :=
  if i < w then 0 else
    if (closes.getD i 0 - closes.getD (i - w) 0) / closes.getD (i - w) 0 > θ then 1
    else if (closes.getD i 0 - closes.getD (i - w) 0) / closes.getD (i - w) 0
        < -θ then -1
    else 0

/-- Position of `_execute_on_cpu`, `MomentumStrategy` branch. -/
def cpuMomentumPosition (closes : List ℚ) (w : ℕ) (θ : ℚ) : ℕ → ℚ
  | 0 => if 0 < w then 0
         else if cpuMomentumSignal closes w θ 0 ≠ 0 then
           cpuMomentumSignal closes w θ 0
         else 0
  | i + 1 =>
      if i + 1 < w then 0
      else if cpuMomentumSignal closes w θ (i + 1) ≠ 0 then
        cpuMomentumSignal closes w θ (i + 1)
      else cpuMomentumPosition closes w θ i

/-- Signal of the `bollinger_bands` kernel of
gpu_server/gpu_engine/kernels.py at bar `idx` (population deviation;
lower band tested first). -/
noncomputable def kernelBollingerSignal (closes : List ℚ) (w : ℕ) (numStd : ℚ)
    (idx : ℕ) : ℝ :=
  if idx < w then 0 else
    if ((closes.getD idx 0 : ℚ) : ℝ)
        < ((listMean (rollingWindow closes w idx) : ℚ) : ℝ)
          - (numStd : ℝ)
            * Real.sqrt ((popVariance (rollingWindow closes w idx) : ℚ) : ℝ) then 1
    else if ((closes.getD idx 0 : ℚ) : ℝ)
        > ((listMean (rollingWindow closes w idx) : ℚ) : ℝ)
          + (numStd : ℝ)
            * Real.sqrt ((popVariance (rollingWindow closes w idx) : ℚ) : ℝ) then -1
    else 0

/-- Position of the `bollinger_bands` kernel of
gpu_server/gpu_engine/kernels.py. -/
noncomputable def kernelBollingerPosition (closes : List ℚ) (w : ℕ)
    (numStd : ℚ) : ℕ → ℝ
  | 0 => if 0 < w then 0
         else if kernelBollingerSignal closes w numStd 0 ≠ 0 then
           kernelBollingerSignal closes w numStd 0
         else 0
  | idx + 1 =>
      if idx + 1 < w then 0
      else if kernelBollingerSignal closes w numStd (idx + 1) ≠ 0 then
        kernelBollingerSignal closes w numStd (idx + 1)
      else kernelBollingerPosition closes w numStd idx

/-- Signal of the `momentum_strategy` kernel of
gpu_server/gpu_engine/kernels.py at bar `idx`
(`(current / past) - 1`). -/
def kernelMomentumSignal (closes : List ℚ) (w : ℕ) (θ : ℚ) (idx : ℕ) : ℚ :=
  if idx < w then 0 else
    if closes.getD idx 0 / closes.getD (idx - w) 0 - 1 > θ then 1
    else if closes.getD idx 0 / closes.getD (idx - w) 0 - 1 < -θ then -1
    else 0

/-- Position of the `momentum_strategy` kernel of
gpu_server/gpu_engine/kernels.py. -/
def kernelMomentumPosition (closes : List ℚ) (w : ℕ) (θ : ℚ) : ℕ → ℚ
  | 0 => if 0 < w then 0
         else if kernelMomentumSignal closes w θ 0 ≠ 0 then
           kernelMomentumSignal closes w θ 0
         else 0
  | idx + 1 =>
      if idx + 1 < w then 0
      else if kernelMomentumSignal closes w θ (idx + 1) ≠ 0 then
        kernelMomentumSignal closes w θ (idx + 1)
      else kernelMomentumPosition closes w θ idx

/-- The z-score of the `mean_reversion` kernel of
gpu_server/gpu_engine/kernels.py: no zero-deviation guard, so a constant
window yields the float NaN `0.0/0.0`, embedded as `none`. -/
noncomputable def kernelMeanReversionZScore (closes : List ℚ) (w idx : ℕ) :
    Option ℝ :=
  if popVariance (rollingWindow closes w idx) = 0 then none
  else some (((closes.getD idx 0 - listMean (rollingWindow closes w idx) : ℚ) : ℝ)
    / Real.sqrt ((popVariance (rollingWindow closes w idx) : ℚ) : ℝ))

/-- Signal of the `mean_reversion` kernel of
gpu_server/gpu_engine/kernels.py at bar `idx` (every comparison against a
NaN z-score is false, leaving the signal 0). -/
noncomputable def kernelMeanReversionSignal (closes : List ℚ) (w : ℕ)
    (entryThreshold _exitThreshold : ℚ) (idx : ℕ) : ℝ :=
  if idx < w then 0 else
    match kernelMeanReversionZScore closes w idx with
    | some z =>
        if z < -(entryThreshold : ℝ) then 1
        else if z > (entryThreshold : ℝ) then -1
        else 0
    | none => 0

/-- Position of the `mean_reversion` kernel of
gpu_server/gpu_engine/kernels.py: hold only while `|z| ≥ exit_threshold`
(false for a NaN z-score), otherwise flat. -/
noncomputable def kernelMeanReversionPosition (closes : List ℚ) (w : ℕ)
    (entryThreshold exitThreshold : ℚ) : ℕ → ℝ
  | 0 => if 0 < w then 0
         else if kernelMeanReversionSignal closes w entryThreshold exitThreshold 0
             ≠ 0 then
           kernelMeanReversionSignal closes w entryThreshold exitThreshold 0
         else 0
  | idx + 1 =>
      if idx + 1 < w then 0
      else if kernelMeanReversionSignal closes w entryThreshold exitThreshold
          (idx + 1) ≠ 0 then
        kernelMeanReversionSignal closes w entryThreshold exitThreshold (idx + 1)
      else
        match kernelMeanReversionZScore closes w (idx + 1) with
        | some z =>
            if |z| ≥ (exitThreshold : ℝ) then
              kernelMeanReversionPosition closes w entryThreshold exitThreshold idx
            else 0
        | none => 0

/-- Signal of the `bollinger_bands` kernel of src/engine/cuda_kernels.py
at bar `idx` (population deviation; upper band tested first). -/
noncomputable def cudaBollingerSignal (closes : List ℚ) (w : ℕ) (numStd : ℚ)
    (idx : ℕ) : ℝ :=
  if idx < w then 0 else
    if ((closes.getD idx 0 : ℚ) : ℝ)
        > ((listMean (rollingWindow closes w idx) : ℚ) : ℝ)
          + (numStd : ℝ)
            * Real.sqrt ((popVariance (rollingWindow closes w idx) : ℚ) : ℝ) then -1
    else if ((closes.getD idx 0 : ℚ) : ℝ)
        < ((listMean (rollingWindow closes w idx) : ℚ) : ℝ)
          - (numStd : ℝ)
            * Real.sqrt ((popVariance (rollingWindow closes w idx) : ℚ) : ℝ) then 1
    else 0

/-- Position of the `bollinger_bands` kernel of src/engine/cuda_kernels.py
(`positions[0]` is left at its zero initialisation by the `idx > 0`
guard). -/
noncomputable def cudaBollingerPosition (closes : List ℚ) (w : ℕ)
    (numStd : ℚ) : ℕ → ℝ
  | 0 => 0
  | idx + 1 =>
      if idx + 1 < w then 0
      else if cudaBollingerSignal closes w numStd (idx + 1) ≠ 0 then
        cudaBollingerSignal closes w numStd (idx + 1)
      else cudaBollingerPosition closes w numStd idx

/-- Weak forward-fill invariant for a rational signal/position pair: the
position starts flat and every later position is the bar's signal or the
previous position. -/
def weakFillRat (sig pos : ℕ → ℚ) : Prop :=
  pos 0 = 0 ∧ ∀ i : ℕ, pos (i + 1) = sig (i + 1) ∨ pos (i + 1) = pos i

/-- Weak forward-fill invariant for a real signal/position pair. -/
def weakFillReal (sig pos : ℕ → ℝ) : Prop :=
  pos 0 = 0 ∧ ∀ i : ℕ, pos (i + 1) = sig (i + 1) ∨ pos (i + 1) = pos i

theorem cpuMovingAvg_weakFill (closes : List ℚ) (sw lw : ℕ) (θ : ℚ)
    (hw : 0 < lw) :
    weakFillRat (cpuMovingAvgSignal closes sw lw θ)
      (cpuMovingAvgPosition closes sw lw θ) := by
  refine ⟨by rw [cpuMovingAvgPosition, if_pos hw], fun i => ?_⟩
  by_cases hlt : i + 1 < lw
  · left
    rw [cpuMovingAvgPosition, if_pos hlt, cpuMovingAvgSignal, if_pos hlt]
  · rw [cpuMovingAvgPosition, if_neg hlt]
    by_cases hs : cpuMovingAvgSignal closes sw lw θ (i + 1) ≠ 0
    · left; rw [if_pos hs]
    · right; rw [if_neg hs]

theorem cpuBollinger_weakFill (closes : List ℚ) (w : ℕ) (numStd : ℚ)
    (hw : 0 < w) :
    weakFillReal (cpuBollingerSignal closes w numStd)
      (cpuBollingerPosition closes w numStd) := by
  refine ⟨by rw [cpuBollingerPosition, if_pos hw], fun i => ?_⟩
  by_cases hlt : i + 1 < w
  · left
    rw [cpuBollingerPosition, if_pos hlt, cpuBollingerSignal, if_pos hlt]
  · rw [cpuBollingerPosition, if_neg hlt]
    by_cases hs : cpuBollingerSignal closes w numStd (i + 1) ≠ 0
    · left; rw [if_pos hs]
    · right; rw [if_neg hs]

theorem cpuMomentum_weakFill (closes : List ℚ) (w : ℕ) (θ : ℚ) (hw : 0 < w) :
    weakFillRat (cpuMomentumSignal closes w θ) (cpuMomentumPosition closes w θ) := by
  refine ⟨by rw [cpuMomentumPosition, if_pos hw], fun i => ?_⟩
  by_cases hlt : i + 1 < w
  · left
    rw [cpuMomentumPosition, if_pos hlt, cpuMomentumSignal, if_pos hlt]
  · rw [cpuMomentumPosition, if_neg hlt]
    by_cases hs : cpuMomentumSignal closes w θ (i + 1) ≠ 0
    · left; rw [if_pos hs]
    · right; rw [if_neg hs]

theorem cpuMeanReversion_weakFill (closes : List ℚ) (w : ℕ) (eθ xθ : ℚ)
    (hw : 0 < w) :
    weakFillReal (cpuMeanReversionSignal closes w eθ xθ)
      (cpuMeanReversionPosition closes w eθ xθ) := by
  refine ⟨by rw [cpuMeanReversionPosition, if_pos hw], fun i => ?_⟩
  by_cases hlt : i + 1 < w
  · left
    rw [cpuMeanReversionPosition, if_pos hlt, cpuMeanReversionSignal,
      if_pos hlt]
  · rw [cpuMeanReversionPosition, if_neg hlt, cpuMeanReversionSignal,
      if_neg hlt]
    cases hz : cpuMeanReversionZScore closes w (i + 1) with
    | none => right; rfl
    | some z =>
      dsimp only
      by_cases h1 : z < -(eθ : ℝ)
      · left; rw [if_pos h1, if_pos h1]
      · rw [if_neg h1, if_neg h1]
        by_cases h2 : z > (eθ : ℝ)
        · left; rw [if_pos h2, if_pos h2]
        · rw [if_neg h2, if_neg h2]
          by_cases h3 : |z| < (xθ : ℝ)
          · left; rw [if_pos h3]
          · right; rw [if_neg h3]

theorem kernelMovingAvg_weakFill (closes : List ℚ) (sw lw : ℕ) (θ : ℚ)
    (hw : 0 < lw) :
    weakFillRat (kernelMovingAvgSignal closes sw lw θ)
      (kernelMovingAvgPosition closes sw lw θ) := by
  refine ⟨by rw [kernelMovingAvgPosition, if_pos hw], fun i => ?_⟩
  by_cases hlt : i + 1 < lw
  · left
    rw [kernelMovingAvgPosition, if_pos hlt, kernelMovingAvgSignal, if_pos hlt]
  · rw [kernelMovingAvgPosition, if_neg hlt]
    by_cases hs : kernelMovingAvgSignal closes sw lw θ (i + 1) ≠ 0
    · left; rw [if_pos hs]
    · right; rw [if_neg hs]

theorem kernelBollinger_weakFill (closes : List ℚ) (w : ℕ) (numStd : ℚ)
    (hw : 0 < w) :
    weakFillReal (kernelBollingerSignal closes w numStd)
      (kernelBollingerPosition closes w numStd) := by
  refine ⟨by rw [kernelBollingerPosition, if_pos hw], fun i => ?_⟩
  by_cases hlt : i + 1 < w
  · left
    rw [kernelBollingerPosition, if_pos hlt, kernelBollingerSignal, if_pos hlt]
  · rw [kernelBollingerPosition, if_neg hlt]
    by_cases hs : kernelBollingerSignal closes w numStd (i + 1) ≠ 0
    · left; rw [if_pos hs]
    · right; rw [if_neg hs]

theorem kernelMomentum_weakFill (closes : List ℚ) (w : ℕ) (θ : ℚ)
    (hw : 0 < w) :
    weakFillRat (kernelMomentumSignal closes w θ)
      (kernelMomentumPosition closes w θ) := by
  refine ⟨by rw [kernelMomentumPosition, if_pos hw], fun i => ?_⟩
  by_cases hlt : i + 1 < w
  · left
    rw [kernelMomentumPosition, if_pos hlt, kernelMomentumSignal, if_pos hlt]
  · rw [kernelMomentumPosition, if_neg hlt]
    by_cases hs : kernelMomentumSignal closes w θ (i + 1) ≠ 0
    · left; rw [if_pos hs]
    · right; rw [if_neg hs]

theorem kernelMeanReversion_weakFill (closes : List ℚ) (w : ℕ) (eθ xθ : ℚ)
    (hw : 0 < w) :
    weakFillReal (kernelMeanReversionSignal closes w eθ xθ)
      (kernelMeanReversionPosition closes w eθ xθ) := by
  refine ⟨by rw [kernelMeanReversionPosition, if_pos hw], fun i => ?_⟩
  by_cases hlt : i + 1 < w
  · left
    rw [kernelMeanReversionPosition, if_pos hlt, kernelMeanReversionSignal,
      if_pos hlt]
  · rw [kernelMeanReversionPosition, if_neg hlt]
    by_cases hs : kernelMeanReversionSignal closes w eθ xθ (i + 1) ≠ 0
    · left; rw [if_pos hs]
    · rw [if_neg hs]
      have hs0 : kernelMeanReversionSignal closes w eθ xθ (i + 1) = 0 :=
        not_ne_iff.mp hs
      cases hz : kernelMeanReversionZScore closes w (i + 1) with
      | none => left; rw [hs0]
      | some z =>
        dsimp only
        by_cases hx : |z| ≥ (xθ : ℝ)
        · right; rw [if_pos hx]
        · left; rw [if_neg hx, hs0]

theorem cudaMovingAverageCrossover_weakFill (closes : List ℚ) (sw lw : ℕ)
    (θ : ℚ) :
    weakFillRat (cudaMovingAverageCrossoverSignal closes sw lw θ)
      (cudaMovingAverageCrossoverPosition closes sw lw θ) := by
  refine ⟨rfl, fun i => ?_⟩
  by_cases hlt : i + 1 < lw
  · left
    rw [cudaMovingAverageCrossoverPosition, if_pos hlt,
      cudaMovingAverageCrossoverSignal, if_pos hlt]
  · rw [cudaMovingAverageCrossoverPosition, if_neg hlt]
    by_cases hs : cudaMovingAverageCrossoverSignal closes sw lw θ (i + 1) ≠ 0
    · left; rw [if_pos hs]
    · right; rw [if_neg hs]

theorem cudaBollinger_weakFill (closes : List ℚ) (w : ℕ) (numStd : ℚ) :
    weakFillReal (cudaBollingerSignal closes w numStd)
      (cudaBollingerPosition closes w numStd) := by
  refine ⟨rfl, fun i => ?_⟩
  by_cases hlt : i + 1 < w
  · left
    rw [cudaBollingerPosition, if_pos hlt, cudaBollingerSignal, if_pos hlt]
  · rw [cudaBollingerPosition, if_neg hlt]
    by_cases hs : cudaBollingerSignal closes w numStd (i + 1) ≠ 0
    · left; rw [if_pos hs]
    · right; rw [if_neg hs]

theorem cudaMomentum_weakFill (closes : List ℚ) (w : ℕ) (θ : ℚ) :
    weakFillRat (cudaMomentumSignal closes w θ)
      (cudaMomentumPosition closes w θ) := by
  refine ⟨rfl, fun i => ?_⟩
  by_cases hlt : i + 1 < w
  · left
    rw [cudaMomentumPosition, if_pos hlt, cudaMomentumSignal, if_pos hlt]
  · rw [cudaMomentumPosition, if_neg hlt]
    by_cases hs : cudaMomentumSignal closes w θ (i + 1) ≠ 0
    · left; rw [if_pos hs]
    · right; rw [if_neg hs]

theorem cudaMeanReversion_weakFill (closes : List ℚ) (w : ℕ) (zθ : ℚ) :
    weakFillReal (cudaMeanReversionSignal closes w zθ)
      (cudaMeanReversionPosition closes w zθ) := by
  refine ⟨rfl, fun i => ?_⟩
  by_cases hlt : i + 1 < w
  · left
    rw [cudaMeanReversionPosition, if_pos hlt, cudaMeanReversionSignal,
      if_pos hlt]
  · rw [cudaMeanReversionPosition, if_neg hlt]
    by_cases hv : popVariance (rollingWindow closes w (i + 1)) = 0
    · left
      rw [if_pos hv, cudaMeanReversionSignal, if_neg hlt, if_pos hv]
    · rw [if_neg hv]
      by_cases hs : cudaMeanReversionSignal closes w zθ (i + 1) ≠ 0
      · left; rw [if_pos hs]
      · right; rw [if_neg hs]

/-- C2, amended: every backend's position sequence satisfies
`position[0] = 0` (for a positive window) and the weak invariant
`position[i] ∈ {signal[i], position[i-1]}`: the generic forward-fill of
the vectorized path (for every signal sequence, where the strict rule —
position carried forward whenever the signal is 0 — holds as well, first
conjunct), all four scalar-path branches, all four kernels of
gpu_server/gpu_engine/kernels.py, and all four kernels of
src/engine/cuda_kernels.py.  The strict rule itself fails only on the
MeanReversion exit branches, which reset the position to
`0 = signal[i]` (see the counterexample). -/
theorem C2_position_forward_fill :
    (∀ signals : List ℚ,
      (signals ≠ [] → (forwardFillPositions signals).getD 0 0 = 0)
      ∧ ∀ i : ℕ, i + 1 < signals.length →
          (forwardFillPositions signals).getD (i + 1) 0
            = (if signals.getD (i + 1) 0 ≠ 0 then signals.getD (i + 1) 0
               else (forwardFillPositions signals).getD i 0))
    ∧ (∀ (closes : List ℚ) (sw lw : ℕ) (θ : ℚ), 0 < lw →
        weakFillRat (cpuMovingAvgSignal closes sw lw θ)
          (cpuMovingAvgPosition closes sw lw θ))
    ∧ (∀ (closes : List ℚ) (w : ℕ) (numStd : ℚ), 0 < w →
        weakFillReal (cpuBollingerSignal closes w numStd)
          (cpuBollingerPosition closes w numStd))
    ∧ (∀ (closes : List ℚ) (w : ℕ) (θ : ℚ), 0 < w →
        weakFillRat (cpuMomentumSignal closes w θ)
          (cpuMomentumPosition closes w θ))
    ∧ (∀ (closes : List ℚ) (w : ℕ) (eθ xθ : ℚ), 0 < w →
        weakFillReal (cpuMeanReversionSignal closes w eθ xθ)
          (cpuMeanReversionPosition closes w eθ xθ))
    ∧ (∀ (closes : List ℚ) (sw lw : ℕ) (θ : ℚ), 0 < lw →
        weakFillRat (kernelMovingAvgSignal closes sw lw θ)
          (kernelMovingAvgPosition closes sw lw θ))
    ∧ (∀ (closes : List ℚ) (w : ℕ) (numStd : ℚ), 0 < w →
        weakFillReal (kernelBollingerSignal closes w numStd)
          (kernelBollingerPosition closes w numStd))
    ∧ (∀ (closes : List ℚ) (w : ℕ) (θ : ℚ), 0 < w →
        weakFillRat (kernelMomentumSignal closes w θ)
          (kernelMomentumPosition closes w θ))
    ∧ (∀ (closes : List ℚ) (w : ℕ) (eθ xθ : ℚ), 0 < w →
        weakFillReal (kernelMeanReversionSignal closes w eθ xθ)
          (kernelMeanReversionPosition closes w eθ xθ))
    ∧ (∀ (closes : List ℚ) (sw lw : ℕ) (θ : ℚ),
        weakFillRat (cudaMovingAverageCrossoverSignal closes sw lw θ)
          (cudaMovingAverageCrossoverPosition closes sw lw θ))
    ∧ (∀ (closes : List ℚ) (w : ℕ) (numStd : ℚ),
        weakFillReal (cudaBollingerSignal closes w numStd)
          (cudaBollingerPosition closes w numStd))
    ∧ (∀ (closes : List ℚ) (w : ℕ) (θ : ℚ),
        weakFillRat (cudaMomentumSignal closes w θ)
          (cudaMomentumPosition closes w θ))
    ∧ (∀ (closes : List ℚ) (w : ℕ) (zθ : ℚ),
        weakFillReal (cudaMeanReversionSignal closes w zθ)
          (cudaMeanReversionPosition closes w zθ)) := by
  refine ⟨?_, fun c sw lw θ hw => cpuMovingAvg_weakFill c sw lw θ hw,
    fun c w k hw => cpuBollinger_weakFill c w k hw,
    fun c w θ hw => cpuMomentum_weakFill c w θ hw,
    fun c w e x hw => cpuMeanReversion_weakFill c w e x hw,
    fun c sw lw θ hw => kernelMovingAvg_weakFill c sw lw θ hw,
    fun c w k hw => kernelBollinger_weakFill c w k hw,
    fun c w θ hw => kernelMomentum_weakFill c w θ hw,
    fun c w e x hw => kernelMeanReversion_weakFill c w e x hw,
    fun c sw lw θ => cudaMovingAverageCrossover_weakFill c sw lw θ,
    fun c w k => cudaBollinger_weakFill c w k,
    fun c w θ => cudaMomentum_weakFill c w θ,
    fun c w z => cudaMeanReversion_weakFill c w z⟩
  intro signals
  constructor
  · intro hne
    cases signals with
    | nil => exact absurd rfl hne
    | cons s rest => simp [forwardFillPositions]
  · intro i hi
    cases signals with
    | nil => simp at hi
    | cons s rest =>
      have hlen : i < rest.length := by simpa using hi
      cases i with
      | zero =>
        cases rest with
        | nil => simp at hlen
        | cons r0 rest' =>
          simp [forwardFillPositions, forwardFillAux]
      | succ j =>
        have hj : j + 1 < rest.length := hlen
        have := forwardFillAux_getD_succ 0 rest j hj
        simpa [forwardFillPositions] using this

/-!
### Strategy-class parameter validation (src/strategies/*.py)

`MovingAverageCrossover.execute_on_gpu`, `MeanReversion.execute_on_gpu`
and `MomentumStrategy.execute_on_gpu` each validate their parameters and
raise a `ValueError` before launching the kernel; the kernel launch is
reached only when every check passes.
-/

/-- `MovingAverageCrossover.execute_on_gpu` (strategies/moving_average.py
42-84): validate, then run the `moving_average_crossover` kernel over the
close prices. -/
def movingAverageExecuteOnGpu (closes : List ℚ) (sw lw : ℕ) (θ : ℚ) :
    Except String (List ℚ × List ℚ) :=
  if sw ≥ lw then Except.error "short_window must be less than long_window"
  else if sw < 2 then Except.error "short_window must be at least 2"
  else Except.ok
    ((List.range closes.length).map (cudaMovingAverageCrossoverSignal closes sw lw θ),
     (List.range closes.length).map (cudaMovingAverageCrossoverPosition closes sw lw θ))

/-- `MeanReversion.execute_on_gpu` (strategies/mean_reversion.py 42-82):
validate, then run the `mean_reversion` kernel. -/
noncomputable def meanReversionExecuteOnGpu (closes : List ℚ) (w : ℕ) (zθ : ℚ) :
    Except String (List ℝ × List ℝ) :=
  if w < 5 then Except.error "window must be at least 5"
  else if zθ ≤ 0 then Except.error "z_threshold must be positive"
  else Except.ok
    ((List.range closes.length).map (cudaMeanReversionSignal closes w zθ),
     (List.range closes.length).map (cudaMeanReversionPosition closes w zθ))

/-- `MomentumStrategy.execute_on_gpu` (strategies/momentum.py 42-84):
validate, then run the `momentum_strategy` kernel. -/
def momentumExecuteOnGpu (closes : List ℚ) (mw : ℕ) (θ : ℚ) :
    Except String (List ℚ × List ℚ) :=
  if mw < 2 then Except.error "momentum_window must be at least 2"
  else if θ ≤ 0 then Except.error "threshold must be positive"
  else Except.ok
    ((List.range closes.length).map (cudaMomentumSignal closes mw θ),
     (List.range closes.length).map (cudaMomentumPosition closes mw θ))

/-- A rising price series on which the GPU-server engine's scalar path
happily computes signals for the invalid parameter pair
`short_window=10 ≥ long_window=5`. -/
def trendCloses : List ℚ := [1, 2, 3, 4, 5, 6, 7, 8, 9, 10, 11, 12]

/-- C4, counterexample: with `short_window=10, long_window=5` (invalid:
`short_window ≥ long_window`) the strategy-class path rejects, but the
GPU-server engine's scalar execution path performs no validation and
computes a live signal of `-1` at bar 11 — so validation does not happen
"on every execution path". -/
theorem C4_engine_path_skips_validation :
    movingAverageExecuteOnGpu trendCloses 10 5 (1 / 100)
      = Except.error "short_window must be less than long_window"
    ∧ cpuMovingAvgSignal trendCloses 10 5 (1 / 100) 11 = -1
    ∧ cpuMovingAvgPosition trendCloses 10 5 (1 / 100) 11 = -1 := by
  refine ⟨by rw [movingAverageExecuteOnGpu, if_pos (by norm_num)], ?_, ?_⟩
  · norm_num [cpuMovingAvgSignal, rollingMean, rollingWindow, listMean,
      trendCloses, abs_of_nonneg]
  · norm_num [cpuMovingAvgPosition, cpuMovingAvgSignal, rollingMean,
      rollingWindow, listMean, trendCloses, abs_of_nonneg]

/-- C4, amended: the strategy classes fail fast — their `execute_on_gpu`
returns a validation error, without reaching the kernel, exactly when the
parameters are invalid (`short_window ≥ long_window` or `short_window < 2`
for MovingAverageCrossover; `window < 5` or `z_threshold ≤ 0` for
MeanReversion; `momentum_window < 2` or `threshold ≤ 0` for
MomentumStrategy).  The GPU-server engine's own execution paths perform no
such validation (see the counterexample). -/
theorem C4_strategy_validation_fails_fast :
    ∀ (closes : List ℚ) (sw lw w mw : ℕ) (θ zθ mθ : ℚ),
      ((∃ msg, movingAverageExecuteOnGpu closes sw lw θ = Except.error msg)
        ↔ (sw ≥ lw ∨ sw < 2))
      ∧ ((∃ msg, meanReversionExecuteOnGpu closes w zθ = Except.error msg)
        ↔ (w < 5 ∨ zθ ≤ 0))
      ∧ ((∃ msg, momentumExecuteOnGpu closes mw mθ = Except.error msg)
        ↔ (mw < 2 ∨ mθ ≤ 0)) := by
  intro closes sw lw w mw θ zθ mθ
  refine ⟨?_, ?_, ?_⟩
  · rw [movingAverageExecuteOnGpu]
    by_cases h1 : sw ≥ lw
    · simp [h1]
    · by_cases h2 : sw < 2 <;> simp [h1, h2]
  · rw [meanReversionExecuteOnGpu]
    by_cases h1 : w < 5
    · simp [h1]
    · by_cases h2 : zθ ≤ 0 <;> simp [h1, h2]
  · rw [momentumExecuteOnGpu]
    by_cases h1 : mw < 2
    · simp [h1]
    · by_cases h2 : mθ ≤ 0 <;> simp [h1, h2]

/-!
### Job scheduler: cancellation (engine.py 263-297)

`GPUBacktestEngine.cancel_job` refuses when the job is in the in-memory
`active_jobs` table, and otherwise flips the persisted status to
`CANCELLED` exactly when it is `PENDING` or `RUNNING`.
-/

/-- `JobStatus` (gpu_server/models/job.py 101-107). -/
inductive JobStatus where
  | pending
  | running
  | completed
  | failed
  | cancelled
deriving DecidableEq

/-- `GPUBacktestEngine.cancel_job` on one job: `activeJob` is whether the
job id is in `active_jobs`, `status` its persisted status; the result is
(the returned boolean, the persisted status after the call). -/
def cancelJob (activeJob : Bool) (status : JobStatus) : Bool × JobStatus :=
  if activeJob then (false, status)
  else if status = JobStatus.pending ∨ status = JobStatus.running then
    (true, JobStatus.cancelled)
  else (false, status)

/-- C5, counterexample: a job whose persisted status is RUNNING but which
is not in the in-memory active table is cancelled successfully, so at the
level of the persisted state machine `cancel_job` does admit a
RUNNING → CANCELLED transition, and success does not imply the status was
PENDING. -/
theorem C5_running_job_cancelled_counterexample :
    cancelJob false JobStatus.running = (true, JobStatus.cancelled)
    ∧ JobStatus.running ≠ JobStatus.pending := by
  refine ⟨by rw [cancelJob]; simp, by simp⟩

/-- C5, amended: `cancel_job` succeeds iff the job is not in the active
table and its persisted status is PENDING or RUNNING; on a failed cancel
the stored status is untouched, and a successful cancel stores CANCELLED.
Under the worker invariant that every persisted-RUNNING job sits in the
active table, success therefore happens only from PENDING. -/
theorem C5_cancel_characterization :
    ∀ (activeJob : Bool) (status : JobStatus),
      (status = JobStatus.running → activeJob = true) →
      (((cancelJob activeJob status).1 = true
          ↔ (activeJob = false ∧ status = JobStatus.pending))
        ∧ ((cancelJob activeJob status).1 = false
            → (cancelJob activeJob status).2 = status)
        ∧ ((cancelJob activeJob status).1 = true
            → (cancelJob activeJob status).2 = JobStatus.cancelled)) := by
  intro activeJob status hinv
  cases activeJob <;> cases status <;> simp_all [cancelJob]

/-- C5, witness: the characterization applied to an inactive PENDING job. -/
theorem C5_cancel_witness :
    ((cancelJob false JobStatus.pending).1 = true
      ↔ (false = false ∧ JobStatus.pending = JobStatus.pending))
    ∧ ((cancelJob false JobStatus.pending).1 = false
        → (cancelJob false JobStatus.pending).2 = JobStatus.pending)
    ∧ ((cancelJob false JobStatus.pending).1 = true
        → (cancelJob false JobStatus.pending).2 = JobStatus.cancelled) :=
  C5_cancel_characterization false JobStatus.pending (by simp)

/-!
### Trade records and metrics data model

`Trade` of gpu_server/models/job.py 59-67 and `TradeRecord` of
core/models.py 48-55 have the same shape; timestamps are embedded as
rational day counts.  `Metrics` mirrors gpu_server/models/job.py 78-92 and
`BacktestMetrics` mirrors core/models.py 65-78; every field is optional
and defaults to unset.  `profit_factor` of the utils calculator can be the
float `inf`, embedded as `⊤ : WithTop ℚ`.
-/

/-- A trade record (`Trade` / `TradeRecord`). -/
structure TradeRec where
  symbol : String
  entry_date : ℚ
  exit_date : Option ℚ := none
  entry_price : ℚ
  exit_price : Option ℚ := none
  position_size : ℚ
  pnl : Option ℚ := none
deriving DecidableEq, Inhabited

/-- Python truthiness test `t.pnl and t.pnl > 0` (also the filter
`t.pnl is not None and t.pnl > 0`). -/
def tradeHasPositivePnl (t : TradeRec) : Bool :=
  match t.pnl with
  | some p => decide (0 < p)
  | none => false

/-- Python truthiness test `t.pnl and t.pnl < 0` (also the filter
`t.pnl is not None and t.pnl < 0`). -/
def tradeHasNegativePnl (t : TradeRec) : Bool :=
  match t.pnl with
  | some p => decide (p < 0)
  | none => false

/-- Overall metrics record of the GPU server (`Metrics`,
gpu_server/models/job.py 78-92). -/
structure Metrics where
  sharpe_ratio : Option (Option ℝ) := none
  max_drawdown : Option ℚ := none
  total_return : Option ℚ := none
  volatility : Option ℝ := none
  win_rate : Option ℚ := none
  profit_factor : Option ℚ := none
  avg_trade : Option ℚ := none
  num_trades : Option ℕ := none
  max_consecutive_wins : Option ℕ := none
  max_consecutive_losses : Option ℕ := none
  cagr : Option ℝ := none
  calmar_ratio : Option ℝ := none
  sortino_ratio : Option (Option ℝ) := none

/-- Overall metrics record of the utils calculator (`BacktestMetrics`,
core/models.py 65-78). -/
structure BacktestMetrics where
  sharpe_ratio : Option (Option ℝ) := none
  max_drawdown : Option ℚ := none
  total_return : Option ℚ := none
  volatility : Option ℝ := none
  win_rate : Option ℚ := none
  profit_factor : Option (WithTop ℚ) := none
  avg_trade : Option ℚ := none
  num_trades : Option ℕ := none
  max_consecutive_wins : Option ℕ := none
  max_consecutive_losses : Option ℕ := none
  cagr : Option ℝ := none
  calmar_ratio : Option ℝ := none
  sortino_ratio : Option (Option ℝ) := none

/-- Per-symbol metrics record (`SymbolMetrics`, core/models.py 57-63). -/
structure SymbolMetricsRec where
  total_return : ℚ
  win_rate : ℚ
  avg_gain : Option ℚ := none
  avg_loss : Option ℚ := none
  max_drawdown : Option ℚ := none
  volatility : Option ℚ := none

/-!
### Ratio and drawdown helpers
-/

/-- `calculate_sharpe_ratio` (utils/metrics.py 151-159):
`mean(excess) / std(excess, ddof=1) * sqrt(periods)` with an explicit 0
for fewer than two samples.  With at least two samples the sample
standard deviation is finite, and zero exactly when the sample variance
is zero; the float division of the mean by an exact `0.0` then yields
`±inf` (or `NaN` for a zero mean) — a non-finite result, embedded as
`none`. -/
noncomputable def calculateSharpeRatio (returns : List ℚ) (riskFreeRate : ℚ)
    (periodsPerYear : ℕ) : Option ℝ :=
  if returns.length < 2 then some 0
  else if sampleVariance (returns.map fun r => r - riskFreeRate) = 0 then none
  else some
    (((listMean (returns.map fun r => r - riskFreeRate) : ℚ) : ℝ)
        / Real.sqrt ((sampleVariance (returns.map fun r => r - riskFreeRate) : ℚ) : ℝ)
      * Real.sqrt (periodsPerYear : ℝ))

/-- `_calculate_sharpe_ratio` (gpu_server/gpu_engine/metrics.py 222-259,
numpy path): annualized excess return over annualized volatility, behind
the guard `annual_volatility != 0`.  Below two samples
`np.std(..., ddof=1)` is NaN (`0/0` in the `ddof=1` variance), NaN passes
the `!= 0` guard, and the quotient is NaN — embedded as `none`.  At two
or more samples the volatility is finite and zero exactly when the sample
variance is zero; the guard then returns 0. -/
noncomputable def gpuSharpeRatio (returns : List ℚ) (riskFreeRate : ℚ)
    (periodsPerYear : ℕ) : Option ℝ :=
  if returns.length < 2 then none
  else if sampleVariance (returns.map fun r =>
      r - riskFreeRate / (periodsPerYear : ℚ)) = 0 then some 0
  else some
    (((listMean (returns.map fun r => r - riskFreeRate / (periodsPerYear : ℚ)) : ℚ) : ℝ)
        * (periodsPerYear : ℝ)
      / (Real.sqrt ((sampleVariance (returns.map fun r =>
            r - riskFreeRate / (periodsPerYear : ℚ)) : ℚ) : ℝ)
          * Real.sqrt (periodsPerYear : ℝ)))

/-- `_calculate_sortino_ratio` (gpu_server/gpu_engine/metrics.py 261-304,
numpy path): annualized excess return over annualized downside deviation
behind the guard `downside_deviation != 0`.  On an empty list `np.mean`
is NaN and the quotient is NaN (`none`); otherwise the downside deviation
— a population mean of squares under a square root — is finite, and the
guard returns 0 when it is zero. -/
noncomputable def gpuSortinoRatio (returns : List ℚ) (riskFreeRate : ℚ)
    (periodsPerYear : ℕ) : Option ℝ :=
  if returns = [] then none
  else if listMean ((returns.map fun r =>
      min (r - riskFreeRate / (periodsPerYear : ℚ)) 0).map fun d => d ^ 2) = 0 then
    some 0
  else some
    (((listMean (returns.map fun r => r - riskFreeRate / (periodsPerYear : ℚ)) : ℚ) : ℝ)
        * (periodsPerYear : ℝ)
      / (Real.sqrt ((listMean ((returns.map fun r =>
            min (r - riskFreeRate / (periodsPerYear : ℚ)) 0).map fun d => d ^ 2) : ℚ) : ℝ)
          * Real.sqrt (periodsPerYear : ℝ)))

/-- `np.maximum.accumulate`, carrying the running maximum. -/
def runningMaxAux (cur : ℚ) : List ℚ → List ℚ
  | [] => []
  | x :: xs => max cur x :: runningMaxAux (max cur x) xs

/-- `np.maximum.accumulate` over an equity curve. -/
def runningMax : List ℚ → List ℚ
  | [] => []
  | x :: xs => x :: runningMaxAux x xs

/-- `calculate_max_drawdown` (utils/metrics.py 161-173):
`max((running_max - equity) / running_max)`, 0 for curves shorter than 2. -/
def calculateMaxDrawdown (equityCurve : List ℚ) : ℚ :=
  if equityCurve.length < 2 then 0
  else
    ((List.zipWith (fun m e => (m - e) / m) (runningMax equityCurve) equityCurve).max?).getD 0

/-- `_max_consecutive` (gpu_server/gpu_engine/metrics.py 373-394), loop
state `(current_count, max_count)`. -/
def maxConsecutiveAux (val : ℚ) (cur best : ℕ) : List ℚ → ℕ
  | [] => best
  | v :: rest =>
      if v = val then maxConsecutiveAux val (cur + 1) (max best (cur + 1)) rest
      else maxConsecutiveAux val 0 best rest

/-- `_max_consecutive(arr, val)`. -/
def maxConsecutive (arr : List ℚ) (val : ℚ) : ℕ :=
  maxConsecutiveAux val 0 0 arr

/-!
### Overall metrics of the GPU server

`_calculate_overall_metrics` (gpu_server/gpu_engine/metrics.py 140-220).
Basic metrics are set only for a nonempty trade list; every advanced
metric is further gated on its name appearing in `metrics_to_calculate`
and its inputs being nonempty.  `metrics.cagr / metrics.max_drawdown` in
the Calmar branch is a Python `TypeError` when `cagr` is unset, modelled
as `Option.map` (the claims never reach that branch with `cagr` unset).
-/

/-- `_calculate_overall_metrics`. -/
noncomputable def calculateOverallMetrics (trades : List TradeRec)
    (returns : List ℚ) (drawdowns : List ℚ) (initialCapital : ℚ)
    (metricsToCalculate : List String) : Metrics :=
  let winningTrades := trades.filter tradeHasPositivePnl
  let losingTrades := trades.filter tradeHasNegativePnl
  let totalPnl := (trades.map fun t => t.pnl.getD 0).sum
  let totalReturn := totalPnl / initialCapital
  let maxDrawdown : Option ℚ :=
    if "max_drawdown" ∈ metricsToCalculate then drawdowns.max? else none
  let cagr : Option ℝ :=
    if "cagr" ∈ metricsToCalculate ∧ trades ≠ [] ∧ 1 < trades.length then
      let lastTrade := trades.getLastD default
      let years := ((lastTrade.exit_date.getD lastTrade.entry_date)
        - (trades.headD default).entry_date) / (36525 / 100 : ℚ)
      if 0 < years then
        some ((((1 + totalReturn : ℚ) : ℝ)) ^ ((1 : ℝ) / ((years : ℚ) : ℝ)) - 1)
      else none
    else none
  { num_trades := if trades ≠ [] then some trades.length else none
    win_rate :=
      if trades ≠ [] then some ((winningTrades.length : ℚ) / (trades.length : ℚ))
      else none
    total_return := if trades ≠ [] then some totalReturn else none
    avg_trade :=
      if trades ≠ [] then some (totalPnl / (trades.length : ℚ)) else none
    profit_factor :=
      if trades ≠ [] ∧ losingTrades ≠ [] then
        some
          (if (losingTrades.map fun t => t.pnl.getD 0).sum ≠ 0 then
            (winningTrades.map fun t => t.pnl.getD 0).sum
              / |(losingTrades.map fun t => t.pnl.getD 0).sum|
          else 0)
      else none
    sharpe_ratio :=
      if "sharpe_ratio" ∈ metricsToCalculate ∧ returns ≠ [] then
        some (gpuSharpeRatio returns 0 252)
      else none
    max_drawdown := maxDrawdown
    volatility :=
      if "volatility" ∈ metricsToCalculate ∧ returns ≠ [] then
        some (Real.sqrt ((popVariance returns : ℚ) : ℝ))
      else none
    max_consecutive_wins :=
      if ("max_consecutive_wins" ∈ metricsToCalculate
            ∨ "max_consecutive_losses" ∈ metricsToCalculate) ∧ trades ≠ [] then
        some (maxConsecutive
          (trades.map fun t => if tradeHasPositivePnl t then 1 else 0) 1)
      else none
    max_consecutive_losses :=
      if ("max_consecutive_wins" ∈ metricsToCalculate
            ∨ "max_consecutive_losses" ∈ metricsToCalculate) ∧ trades ≠ [] then
        some (maxConsecutive
          (trades.map fun t => if tradeHasPositivePnl t then 1 else 0) 0)
      else none
    cagr := cagr
    calmar_ratio :=
      if "calmar_ratio" ∈ metricsToCalculate then
        match maxDrawdown with
        | some d => if d ≠ 0 ∧ 0 < d then cagr.map (fun c => c / (d : ℝ)) else none
        | none => none
      else none
    sortino_ratio :=
      if "sortino_ratio" ∈ metricsToCalculate ∧ returns ≠ [] then
        some (gpuSortinoRatio returns 0 252)
      else none }

/-!
### Overall metrics of the utils calculator

`calculate_metrics` (utils/metrics.py 58-149): empty trade lists return a
fresh all-unset metrics object and an empty per-symbol mapping; otherwise
per-symbol metrics are built per first-appearance symbol group, and the
overall metrics from the pooled pnl list.  The simplified daily returns of
lines 132 are `np.diff` over the cumulative equity curve divided by the
initial capital.
-/

/-- Group trades by symbol in first-appearance order (the dict built in
utils/metrics.py 89-93). -/
def groupTradesBySymbol (trades : List TradeRec) : List (String × List TradeRec) :=
  trades.foldl
    (fun acc t =>
      if acc.any fun p => p.1 = t.symbol then
        acc.map fun p => if p.1 = t.symbol then (p.1, p.2 ++ [t]) else p
      else acc ++ [(t.symbol, [t])])
    []

/-- Per-symbol metrics of `calculate_metrics` (utils/metrics.py 96-115). -/
def utilsSymbolMetrics (symbolTrades : List TradeRec) (initialCapital : ℚ) :
    SymbolMetricsRec :=
  let winningTrades := symbolTrades.filter tradeHasPositivePnl
  let losingTrades := symbolTrades.filter tradeHasNegativePnl
  { total_return := (symbolTrades.filterMap fun t => t.pnl).sum / initialCapital
    win_rate :=
      if symbolTrades ≠ [] then
        (winningTrades.length : ℚ) / (symbolTrades.length : ℚ)
      else 0
    avg_gain :=
      some (if winningTrades ≠ [] then
        ((winningTrades.filterMap fun t => t.pnl).sum) / (winningTrades.length : ℚ)
      else 0)
    avg_loss :=
      some (if losingTrades ≠ [] then
        ((losingTrades.filterMap fun t => t.pnl).sum) / (losingTrades.length : ℚ)
      else 0) }

/-- The simplified cumulative equity curve of utils/metrics.py 132/138:
`[capital] + [capital + sum(pnls[:i+1]) for i in range(len(pnls))]`. -/
def utilsEquityCurve (pnls : List ℚ) (initialCapital : ℚ) : List ℚ :=
  initialCapital
    :: (List.range pnls.length).map fun i => initialCapital + (pnls.take (i + 1)).sum

/-- `calculate_metrics` (utils/metrics.py 58-149). -/
noncomputable def utilsCalculateMetrics (trades : List TradeRec)
    (initialCapital : ℚ) (metricsToCalculate : List String) :
    BacktestMetrics × List (String × SymbolMetricsRec) :=
  if trades = [] then ({}, [])
  else
    let symbolMetrics := (groupTradesBySymbol trades).map
      fun p => (p.1, utilsSymbolMetrics p.2 initialCapital)
    let allPnls := trades.filterMap fun t => t.pnl
    let totalPnl := allPnls.sum
    let winningTrades := allPnls.filter fun p => 0 < p
    let losingTrades := allPnls.filter fun p => p < 0
    let dailyReturns :=
      (List.zipWith (fun a b => b - a) (utilsEquityCurve allPnls initialCapital)
        (utilsEquityCurve allPnls initialCapital).tail).map
        fun d => d / initialCapital
    ({ sharpe_ratio :=
        if "sharpe_ratio" ∈ metricsToCalculate then
          some (calculateSharpeRatio dailyReturns 0 252)
        else none
       max_drawdown :=
        if "max_drawdown" ∈ metricsToCalculate then
          some (calculateMaxDrawdown (utilsEquityCurve allPnls initialCapital))
        else none
       total_return := some (totalPnl / initialCapital)
       win_rate :=
        some (if allPnls ≠ [] then (winningTrades.length : ℚ) / (allPnls.length : ℚ)
          else 0)
       profit_factor :=
        some (if losingTrades.sum ≠ 0 then
            ((winningTrades.sum / |losingTrades.sum| : ℚ) : WithTop ℚ)
          else (⊤ : WithTop ℚ))
       avg_trade :=
        some (if allPnls ≠ [] then totalPnl / (allPnls.length : ℚ) else 0)
       num_trades := some allPnls.length }, symbolMetrics)

theorem sum_neg_of_forall_neg :
    ∀ l : List ℚ, l ≠ [] → (∀ x ∈ l, x < 0) → l.sum < 0 := by
  intro l
  induction l with
  | nil => intro h; exact absurd rfl h
  | cons x rest ih =>
    intro _ hall
    cases rest with
    | nil => simpa using hall x (by simp)
    | cons y ys =>
      have h1 : x < 0 := hall x (by simp)
      have h2 : (y :: ys).sum < 0 := ih (by simp) fun z hz => hall z (by simp [hz])
      simpa [List.sum_cons] using add_neg h1 h2

theorem losing_trade_pnl_sum_neg (trades : List TradeRec) (t0 : TradeRec)
    (ht0 : t0 ∈ trades) (p0 : ℚ) (hp : t0.pnl = some p0) (hneg : p0 < 0) :
    ((trades.filter tradeHasNegativePnl).map fun t => t.pnl.getD 0).sum < 0 := by
  apply sum_neg_of_forall_neg
  · have hmem : t0 ∈ trades.filter tradeHasNegativePnl :=
      List.mem_filter.2 ⟨ht0, by simp [tradeHasNegativePnl, hp, hneg]⟩
    exact List.ne_nil_of_mem (List.mem_map_of_mem _ hmem)
  · intro x hx
    obtain ⟨t, ht, rfl⟩ := List.mem_map.1 hx
    have := (List.mem_filter.1 ht).2
    rw [tradeHasNegativePnl] at this
    cases hpn : t.pnl with
    | none => rw [hpn] at this; simp at this
    | some p => rw [hpn] at this; simp at this; simpa [hpn] using this

theorem losing_pnl_filter_sum_neg (pnls : List ℚ) (p0 : ℚ)
    (hp0 : p0 ∈ pnls) (hneg : p0 < 0) :
    (pnls.filter fun p => p < 0).sum < 0 := by
  apply sum_neg_of_forall_neg
  · exact List.ne_nil_of_mem (List.mem_filter.2 ⟨hp0, by simpa using hneg⟩)
  · intro x hx
    simpa using (List.mem_filter.1 hx).2

/-- The trade of the C7 counterexample and witness: a single win. -/
def winningTrade : TradeRec :=
  { symbol := "AAPL", entry_date := 0, exit_date := some 1, entry_price := 10,
    exit_price := some 11, position_size := 100, pnl := some 10 }

/-- A losing trade for the C7 witness. -/
def losingTrade : TradeRec :=
  { symbol := "AAPL", entry_date := 2, exit_date := some 3, entry_price := 10,
    exit_price := some 9, position_size := 100, pnl := some (-5) }

/-- C7, counterexample: on a trade list with no losers the claimed default
of 0 is wrong on both implementations — `calculate_metrics`
(utils/metrics.py 126) stores `float('inf')` (here `⊤`), and
`_calculate_overall_metrics` (gpu_server/gpu_engine/metrics.py 169-170)
leaves the field unset. -/
theorem C7_profit_factor_counterexample :
    (utilsCalculateMetrics [winningTrade] 1000 []).1.profit_factor
      = some (⊤ : WithTop ℚ)
    ∧ (calculateOverallMetrics [winningTrade] [] [] 1000 []).profit_factor = none
    ∧ (some (⊤ : WithTop ℚ) : Option (WithTop ℚ)) ≠ some ((0 : ℚ) : WithTop ℚ) := by
  refine ⟨?_, ?_, by simp⟩
  · norm_num [utilsCalculateMetrics, winningTrade, List.filterMap_cons]
  · norm_num [calculateOverallMetrics, winningTrade, tradeHasNegativePnl]

/-- C7, amended: for every trade list containing a losing trade (so the
denominator is live), `profit_factor = Σ winning pnl / |Σ losing pnl|` in
both metrics calculators; when there is no losing trade the utils
calculator stores `inf` and the GPU-server calculator leaves the field
unset (see the counterexample), not 0. -/
theorem C7_profit_factor_formula :
    ∀ (trades : List TradeRec) (returns drawdowns : List ℚ)
      (initialCapital : ℚ) (metricsToCalculate : List String),
      (∃ t ∈ trades, ∃ p, t.pnl = some p ∧ p < 0) →
      (utilsCalculateMetrics trades initialCapital metricsToCalculate).1.profit_factor
        = some ((((trades.filterMap fun t => t.pnl).filter fun p => 0 < p).sum
            / |((trades.filterMap fun t => t.pnl).filter fun p => p < 0).sum| : ℚ)
              : WithTop ℚ)
      ∧ (calculateOverallMetrics trades returns drawdowns initialCapital
            metricsToCalculate).profit_factor
        = some (((trades.filter tradeHasPositivePnl).map fun t => t.pnl.getD 0).sum
            / |((trades.filter tradeHasNegativePnl).map fun t => t.pnl.getD 0).sum|) := by
  intro trades returns drawdowns initialCapital metricsToCalculate h
  obtain ⟨t0, ht0, p0, hp0, hneg⟩ := h
  have htne : trades ≠ [] := List.ne_nil_of_mem ht0
  constructor
  · have hsum : ((trades.filterMap fun t => t.pnl).filter fun p => p < 0).sum < 0 :=
      losing_pnl_filter_sum_neg _ p0
        (List.mem_filterMap.2 ⟨t0, ht0, hp0⟩) hneg
    simp only [utilsCalculateMetrics, htne, if_false]
    rw [if_pos hsum.ne]
  · have hsum :
        ((trades.filter tradeHasNegativePnl).map fun t => t.pnl.getD 0).sum < 0 :=
      losing_trade_pnl_sum_neg trades t0 ht0 p0 hp0 hneg
    have hfilne : trades.filter tradeHasNegativePnl ≠ [] :=
      List.ne_nil_of_mem
        (List.mem_filter.2 ⟨ht0, by simp [tradeHasNegativePnl, hp0, hneg]⟩)
    simp only [calculateOverallMetrics]
    rw [if_pos ⟨htne, hfilne⟩, if_pos hsum.ne]

/-- C7, witness: the formula applied to one winning and one losing trade. -/
theorem C7_profit_factor_witness :
    (utilsCalculateMetrics [winningTrade, losingTrade] 1000 []).1.profit_factor
      = some (((([winningTrade, losingTrade].filterMap fun t => t.pnl).filter
            fun p => 0 < p).sum
          / |(([winningTrade, losingTrade].filterMap fun t => t.pnl).filter
            fun p => p < 0).sum| : ℚ) : WithTop ℚ)
    ∧ (calculateOverallMetrics [winningTrade, losingTrade] [] [] 1000 []).profit_factor
      = some ((([winningTrade, losingTrade].filter tradeHasPositivePnl).map
            fun t => t.pnl.getD 0).sum
          / |(([winningTrade, losingTrade].filter tradeHasNegativePnl).map
            fun t => t.pnl.getD 0).sum|) :=
  C7_profit_factor_formula [winningTrade, losingTrade] [] [] 1000 []
    ⟨losingTrade, by simp, -5, rfl, by norm_num⟩

theorem sampleVariance_nonneg (xs : List ℚ) : 0 ≤ sampleVariance xs := by
  cases xs with
  | nil => simp [sampleVariance, listMean]
  | cons x rest =>
    apply div_nonneg
    · apply List.sum_nonneg
      intro y hy
      obtain ⟨a, _, rfl⟩ := List.mem_map.1 hy
      positivity
    · have h : (1 : ℚ) ≤ (((x :: rest).length : ℕ) : ℚ) := by
        exact_mod_cast Nat.succ_le_of_lt (by simp)
      linarith

/-- C8, counterexample: the claimed zero defaults fail.  At two equal
returns the utils `calculate_sharpe_ratio` divides by an exact-zero
sample standard deviation and yields a non-finite float (`none`), not 0;
at a single return the GPU-server `_calculate_sharpe_ratio` gets a NaN
`ddof=1` deviation, the NaN passes the `!= 0` guard, and the result is
NaN (`none`), not 0. -/
theorem C8_sharpe_zero_cases_counterexample :
    calculateSharpeRatio [1 / 10, 1 / 10] 0 252 = none
    ∧ gpuSharpeRatio [1 / 10] 0 252 = none
    ∧ (none : Option ℝ) ≠ some 0 := by
  refine ⟨?_, ?_, by simp⟩
  · rw [calculateSharpeRatio, if_neg (by norm_num),
      if_pos (by norm_num [sampleVariance, listMean])]
  · rw [gpuSharpeRatio, if_pos (by norm_num)]

/-- C8, amended: with at least two samples and a nonzero sample variance,
both implementations compute `mean(excess)*252 / (std(excess,ddof=1)*√252)`
(with risk-free rate 0 the excess returns are the returns).  The zero
defaults hold only one-sidedly: the utils implementation returns 0 below
two samples but a non-finite float at a zero standard deviation, while
the GPU-server implementation returns 0 at a zero (finite) volatility but
NaN below two samples. -/
theorem C8_sharpe_ratio :
    ∀ returns : List ℚ,
      (returns.length < 2 → calculateSharpeRatio returns 0 252 = some 0)
      ∧ (2 ≤ returns.length → sampleVariance returns = 0 →
          calculateSharpeRatio returns 0 252 = none)
      ∧ (2 ≤ returns.length → sampleVariance returns ≠ 0 →
          calculateSharpeRatio returns 0 252
            = some (((listMean returns : ℚ) : ℝ) * 252
                / (Real.sqrt ((sampleVariance returns : ℚ) : ℝ)
                    * Real.sqrt 252)))
      ∧ (returns.length < 2 → gpuSharpeRatio returns 0 252 = none)
      ∧ (2 ≤ returns.length → sampleVariance returns = 0 →
          gpuSharpeRatio returns 0 252 = some 0)
      ∧ (2 ≤ returns.length → sampleVariance returns ≠ 0 →
          gpuSharpeRatio returns 0 252
            = some (((listMean returns : ℚ) : ℝ) * 252
                / (Real.sqrt ((sampleVariance returns : ℚ) : ℝ)
                    * Real.sqrt 252))) := by
  intro returns
  have hmap : (returns.map fun r => r - (0 : ℚ)) = returns := by simp
  have hmap2 : (returns.map fun r => r - (0 : ℚ) / ((252 : ℕ) : ℚ)) = returns := by
    simp
  refine ⟨?_, ?_, ?_, ?_, ?_, ?_⟩
  · intro h
    rw [calculateSharpeRatio, if_pos h]
  · intro hlen hvar
    rw [calculateSharpeRatio, if_neg (by omega), hmap, if_pos hvar]
  · intro hlen hvar
    rw [calculateSharpeRatio, if_neg (by omega), hmap, if_neg hvar]
    have hv0 : (0 : ℝ) ≤ ((sampleVariance returns : ℚ) : ℝ) := by
      exact_mod_cast sampleVariance_nonneg returns
    have hvne : ((sampleVariance returns : ℚ) : ℝ) ≠ 0 := by exact_mod_cast hvar
    have hs : Real.sqrt ((sampleVariance returns : ℚ) : ℝ) ≠ 0 := by
      rw [ne_eq, Real.sqrt_eq_zero hv0]
      exact hvne
    have h252 : Real.sqrt ((252 : ℕ) : ℝ) = Real.sqrt 252 := by norm_num
    have h252ne : Real.sqrt (252 : ℝ) ≠ 0 := by positivity
    rw [h252]
    congr 1
    field_simp
    ring_nf
    rw [Real.sq_sqrt (by norm_num : (0 : ℝ) ≤ 252)]
    ring
  · intro h
    rw [gpuSharpeRatio, if_pos h]
  · intro hlen hvar
    rw [gpuSharpeRatio, if_neg (by omega), hmap2, if_pos hvar]
  · intro hlen hvar
    rw [gpuSharpeRatio, if_neg (by omega), hmap2, if_neg hvar]
    norm_num

/-- C10: metrics on an empty trade list.  `calculate_metrics`
(utils/metrics.py 80-93) returns a fresh all-unset metrics object and an
empty per-symbol mapping, and `_calculate_overall_metrics`
(gpu_server/gpu_engine/metrics.py 140-220) leaves every field unset, for
every requested metrics list, without raising. -/
theorem C10_empty_trades_metrics :
    ∀ (metricsToCalculate : List String) (initialCapital : ℚ),
      utilsCalculateMetrics [] initialCapital metricsToCalculate
        = (({} : BacktestMetrics), ([] : List (String × SymbolMetricsRec)))
      ∧ calculateOverallMetrics [] [] [] initialCapital metricsToCalculate
        = ({} : Metrics) := by
  intro metricsToCalculate initialCapital
  constructor
  · rw [utilsCalculateMetrics, if_pos rfl]
  · simp [calculateOverallMetrics]

/-!
### Job records and the worker's terminal write

`BacktestResult` (gpu_server/models/job.py 94-99), the persisted
`BacktestRecord` columns touched by the worker (engine.py 66-78), and the
terminal branch of `_process_jobs` (engine.py 433-486): a successful run
stores COMPLETED with the results and the execution time, a failed run
stores FAILED with the stringified exception; neither branch touches the
other branch's column.
-/

/-- `BacktestResult` of the GPU server. -/
structure BacktestResultRec where
  overall_metrics : Metrics
  per_symbol_metrics : List (String × SymbolMetricsRec)
  equity_curve : Option (List ℚ) := none
  trades : Option (List TradeRec) := none

/-- The mutable columns of a persisted `BacktestRecord`. -/
structure JobRecord where
  status : JobStatus
  execution_time : Option ℚ := none
  results : Option BacktestResultRec := none
  error : Option String := none

/-- The terminal write of `_process_jobs` (engine.py 433-486) for one job,
given the outcome of `_run_backtest`. -/
def workerFinish (record : JobRecord)
    (outcome : Except String BacktestResultRec) (executionTime : ℚ) :
    JobRecord :=
  match outcome with
  | Except.ok result =>
      { record with
        status := JobStatus.completed
        execution_time := some executionTime
        results := some result }
  | Except.error e =>
      { record with status := JobStatus.failed, error := some e }

/-- C6: terminal-state exclusivity.  Starting from a record with neither
results nor error (as created by `submit_job`), and assuming the raised
exception stringifies to a non-empty message, the worker's terminal write
leaves the job COMPLETED with results set and error unset, or FAILED with
a non-empty error and results unset — never both, never neither. -/
theorem C6_terminal_state_exclusivity :
    ∀ (record : JobRecord) (outcome : Except String BacktestResultRec) (t : ℚ),
      record.results = none → record.error = none →
      (∀ e, outcome = Except.error e → e ≠ "") →
      ((workerFinish record outcome t).status = JobStatus.completed
        ∨ (workerFinish record outcome t).status = JobStatus.failed)
      ∧ ((workerFinish record outcome t).status = JobStatus.completed →
          (workerFinish record outcome t).results.isSome = true
          ∧ (workerFinish record outcome t).error = none)
      ∧ ((workerFinish record outcome t).status = JobStatus.failed →
          (workerFinish record outcome t).results = none
          ∧ ∃ e, (workerFinish record outcome t).error = some e ∧ e ≠ "") := by
  intro record outcome t hres herr hmsg
  cases outcome with
  | ok r =>
    refine ⟨Or.inl rfl, fun _ => ⟨rfl, ?_⟩, fun h => ?_⟩
    · simpa [workerFinish] using herr
    · simp [workerFinish] at h
  | error e =>
    refine ⟨Or.inr rfl, fun h => ?_, fun _ => ⟨?_, e, rfl, hmsg e rfl⟩⟩
    · simp [workerFinish] at h
    · simpa [workerFinish] using hres

/-- A freshly submitted record, for the C6 witness. -/
def submittedRecord : JobRecord := { status := JobStatus.running }

/-- C6, witness: the exclusivity applied to a failing run with the
engine's own "no data" message. -/
theorem C6_terminal_state_witness :
    ((workerFinish submittedRecord
        (Except.error "No data available for the specified symbols and date range") 0).status
          = JobStatus.completed
      ∨ (workerFinish submittedRecord
          (Except.error "No data available for the specified symbols and date range") 0).status
          = JobStatus.failed)
    ∧ ((workerFinish submittedRecord
          (Except.error "No data available for the specified symbols and date range") 0).status
          = JobStatus.completed →
        (workerFinish submittedRecord
          (Except.error "No data available for the specified symbols and date range") 0).results.isSome
          = true
        ∧ (workerFinish submittedRecord
            (Except.error "No data available for the specified symbols and date range") 0).error
            = none)
    ∧ ((workerFinish submittedRecord
          (Except.error "No data available for the specified symbols and date range") 0).status
          = JobStatus.failed →
        (workerFinish submittedRecord
          (Except.error "No data available for the specified symbols and date range") 0).results
          = none
        ∧ ∃ e, (workerFinish submittedRecord
            (Except.error "No data available for the specified symbols and date range") 0).error
            = some e ∧ e ≠ "") :=
  C6_terminal_state_exclusivity submittedRecord
    (Except.error "No data available for the specified symbols and date range") 0
    rfl rfl (fun e he => by cases he; simp)

/-!
### Trade generation (`GPUBacktestEngine._generate_trades`, engine.py 1005-1105)

The scan walks bars 1..n-1; on each position change it closes any open
trade at the bar's close adjusted by slippage against the closing side
minus commission, and opens a new trade when the new position is nonzero;
a position still open after the last bar is force-closed at the last
close.  The `position_size` string — a percentage of capital or a fixed
notional — is modelled as a two-case sum instead of string parsing.
-/

/-- The `position_size` specification: `"p%"` or a fixed amount. -/
inductive PositionSizeSpec where
  | pct (p : ℚ)
  | fixedAmount (a : ℚ)

/-- Resolution of the `position_size` specification (engine.py 1025-1032). -/
def resolvePositionSize (spec : PositionSizeSpec) (initialCapital : ℚ) : ℚ :=
  match spec with
  | PositionSizeSpec.pct p => initialCapital * (p / 100)
  | PositionSizeSpec.fixedAmount a => a

/-- The loop state of `_generate_trades`. -/
structure GenTradesState where
  trades : List TradeRec
  entryPrice : ℚ
  entryDate : Option ℚ
  currentPosition : ℚ

/-- One iteration of the `_generate_trades` scan at bar `i`
(engine.py 1034-1079). -/
def generateTradesStep (symbol : String) (dates closes positions : List ℚ)
    (positionSize commission slippage : ℚ) (i : ℕ) (st : GenTradesState) :
    GenTradesState :=
  if positions.getD i 0 ≠ positions.getD (i - 1) 0 then
    let newPosition := positions.getD i 0
    let st1 :=
      if st.currentPosition ≠ 0 then
        let exitPrice := closes.getD i 0 *
          (if 0 < st.currentPosition then 1 - slippage else 1 + slippage)
        let shares := positionSize / |st.entryPrice|
        let pnl := shares * (exitPrice - st.entryPrice) * ratSign st.currentPosition
          - commission * positionSize
        { st with
          trades := st.trades ++
            [{ symbol := symbol
               entry_date := st.entryDate.getD 0
               exit_date := some (dates.getD i 0)
               entry_price := st.entryPrice
               exit_price := some exitPrice
               position_size := positionSize * ratSign st.currentPosition
               pnl := some pnl }] }
      else st
    if newPosition ≠ 0 then
      { st1 with
        entryPrice := closes.getD i 0 *
          (if 0 < newPosition then 1 + slippage else 1 - slippage)
        entryDate := some (dates.getD i 0)
        currentPosition := newPosition }
    else { st1 with currentPosition := 0 }
  else st

/-- The state after the scan has processed bars `1..k`. -/
def generateTradesLoop (symbol : String) (dates closes positions : List ℚ)
    (positionSize commission slippage : ℚ) : ℕ → GenTradesState
  | 0 => { trades := [], entryPrice := 0, entryDate := none, currentPosition := 0 }
  | i + 1 =>
      generateTradesStep symbol dates closes positions positionSize commission
        slippage (i + 1)
        (generateTradesLoop symbol dates closes positions positionSize commission
          slippage i)

/-- `_generate_trades`: the scan over all bars followed by the force-close
of any still-open position at the last close (engine.py 1081-1103). -/
def generateTrades (symbol : String) (dates closes positions : List ℚ)
    (initialCapital : ℚ) (spec : PositionSizeSpec)
    (commission slippage : ℚ) : List TradeRec :=
  let positionSize := resolvePositionSize spec initialCapital
  let st := generateTradesLoop symbol dates closes positions positionSize
    commission slippage (positions.length - 1)
  if st.currentPosition ≠ 0 then
    let exitPrice := closes.getLastD 0 *
      (if 0 < st.currentPosition then 1 - slippage else 1 + slippage)
    let shares := positionSize / |st.entryPrice|
    let pnl := shares * (exitPrice - st.entryPrice) * ratSign st.currentPosition
      - commission * positionSize
    st.trades ++
      [{ symbol := symbol
         entry_date := st.entryDate.getD 0
         exit_date := some (dates.getLastD 0)
         entry_price := st.entryPrice
         exit_price := some exitPrice
         position_size := positionSize * ratSign st.currentPosition
         pnl := some pnl }]
  else st.trades

/-- A trade record with every exit field filled and the exit not earlier
than the entry. -/
def tradeClosedOrdered (t : TradeRec) : Prop :=
  t.exit_date.isSome = true ∧ t.exit_price.isSome = true ∧ t.pnl.isSome = true
  ∧ ∀ x, t.exit_date = some x → t.entry_date ≤ x

theorem getLastD_eq_getD_length_sub_one (l : List ℚ) (d : ℚ) :
    l.getLastD d = l.getD (l.length - 1) d := by
  cases l with
  | nil => rfl
  | cons x xs =>
    rw [List.getLastD_eq_getLast?, List.getLast?_eq_getElem?,
      List.getD_eq_getElem?_getD]

theorem generateTradesLoop_invariant (symbol : String)
    (dates closes positions : List ℚ) (positionSize commission slippage : ℚ)
    (hmono : ∀ i j : ℕ, i ≤ j → j < dates.length →
      dates.getD i 0 ≤ dates.getD j 0)
    (hlen : positions.length = dates.length) :
    ∀ k : ℕ, k < positions.length →
      (∀ t ∈ (generateTradesLoop symbol dates closes positions positionSize
          commission slippage k).trades, tradeClosedOrdered t)
      ∧ ((generateTradesLoop symbol dates closes positions positionSize
            commission slippage k).currentPosition ≠ 0 →
          ∃ j, j ≤ k ∧ j < positions.length ∧
            (generateTradesLoop symbol dates closes positions positionSize
              commission slippage k).entryDate = some (dates.getD j 0)) := by
  intro k
  induction k with
  | zero =>
    intro _
    refine ⟨fun t ht => absurd ht (by simp [generateTradesLoop]), fun h => ?_⟩
    exact absurd rfl h
  | succ k ih =>
    intro hk1
    have hk : k < positions.length := Nat.lt_of_succ_lt hk1
    obtain ⟨ihTrades, ihEntry⟩ := ih hk
    set st := generateTradesLoop symbol dates closes positions positionSize
      commission slippage k with hst
    rw [generateTradesLoop, ← hst]
    rw [generateTradesStep]
    by_cases hchange : positions.getD (k + 1) 0 ≠ positions.getD (k + 1 - 1) 0
    · rw [if_pos hchange]
      by_cases hcp : st.currentPosition ≠ 0
      · obtain ⟨j, hjk, hjn, hjdate⟩ := ihEntry hcp
        have horder : dates.getD j 0 ≤ dates.getD (k + 1) 0 :=
          hmono j (k + 1) (Nat.le_succ_of_le hjk) (hlen ▸ hk1)
        have hnewTrades : ∀ t ∈ st.trades ++
            [{ symbol := symbol
               entry_date := st.entryDate.getD 0
               exit_date := some (dates.getD (k + 1) 0)
               entry_price := st.entryPrice
               exit_price := some (closes.getD (k + 1) 0 *
                 (if 0 < st.currentPosition then 1 - slippage else 1 + slippage))
               position_size := positionSize * ratSign st.currentPosition
               pnl := some (positionSize / |st.entryPrice| *
                 (closes.getD (k + 1) 0 *
                     (if 0 < st.currentPosition then 1 - slippage
                      else 1 + slippage) - st.entryPrice)
                   * ratSign st.currentPosition
                 - commission * positionSize) }], tradeClosedOrdered t := by
          intro t ht
          rcases List.mem_append.1 ht with hmem | hmem
          · exact ihTrades t hmem
          · have ht' := List.mem_singleton.1 hmem
            subst ht'
            refine ⟨rfl, rfl, rfl, fun x hx => ?_⟩
            have hx' : x = dates.getD (k + 1) 0 := by
              simpa using hx.symm
            subst hx'
            simpa [hjdate] using horder
        by_cases hnew : positions.getD (k + 1) 0 ≠ 0
        · rw [if_pos hcp, if_pos hnew]
          refine ⟨hnewTrades, fun _ => ⟨k + 1, le_refl _, hk1, rfl⟩⟩
        · rw [if_pos hcp, if_neg hnew]
          exact ⟨hnewTrades, fun h => absurd rfl h⟩
      · by_cases hnew : positions.getD (k + 1) 0 ≠ 0
        · rw [if_neg hcp, if_pos hnew]
          refine ⟨ihTrades, fun _ => ⟨k + 1, le_refl _, hk1, rfl⟩⟩
        · rw [if_neg hcp, if_neg hnew]
          exact ⟨ihTrades, fun h => absurd rfl h⟩
    · rw [if_neg hchange]
      refine ⟨ihTrades, fun h => ?_⟩
      obtain ⟨j, hjk, hjn, hjdate⟩ := ihEntry h
      exact ⟨j, Nat.le_succ_of_le hjk, hjn, hjdate⟩

/-- Trade closure for `GPUBacktestEngine._generate_trades`: under
monotone bar timestamps, every emitted trade — including the force-close
of a position still open at the final bar — carries exit date, exit price
and pnl, with the exit date not earlier than the entry date. -/
theorem generateTrades_closure :
    ∀ (symbol : String) (dates closes positions : List ℚ)
      (initialCapital : ℚ) (spec : PositionSizeSpec)
      (commission slippage : ℚ),
      (∀ i j : ℕ, i ≤ j → j < dates.length →
        dates.getD i 0 ≤ dates.getD j 0) →
      positions.length = dates.length →
      ∀ t ∈ generateTrades symbol dates closes positions initialCapital spec
          commission slippage,
        tradeClosedOrdered t := by
  intro symbol dates closes positions initialCapital spec commission slippage
    hmono hlen t ht
  rw [generateTrades] at ht
  by_cases hpos : positions = []
  · subst hpos
    simp only [generateTradesLoop] at ht
    rw [if_neg (by simp)] at ht
    exact absurd ht (by simp)
  · have hn1 : positions.length - 1 < positions.length :=
      Nat.sub_lt (List.length_pos.2 hpos) Nat.one_pos
    obtain ⟨invTrades, invEntry⟩ := generateTradesLoop_invariant symbol dates
      closes positions (resolvePositionSize spec initialCapital) commission
      slippage hmono hlen (positions.length - 1) hn1
    set st := generateTradesLoop symbol dates closes positions
      (resolvePositionSize spec initialCapital) commission slippage
      (positions.length - 1) with hst
    by_cases hcp : st.currentPosition ≠ 0
    · rw [if_pos hcp] at ht
      rcases List.mem_append.1 ht with hmem | hmem
      · exact invTrades t hmem
      · obtain ⟨j, hjk, hjn, hjdate⟩ := invEntry hcp
        have hlast : dates.getLastD 0 = dates.getD (dates.length - 1) 0 :=
          getLastD_eq_getD_length_sub_one dates 0
        have horder : dates.getD j 0 ≤ dates.getD (dates.length - 1) 0 := by
          apply hmono j (dates.length - 1) (by omega)
          have : 0 < dates.length := by rw [← hlen]; exact List.length_pos.2 hpos
          omega
        have ht' := List.mem_singleton.1 hmem
        subst ht'
        refine ⟨rfl, rfl, rfl, fun x hx => ?_⟩
        have hx' : x = dates.getLastD 0 := by simpa using hx.symm
        subst hx'
        rw [hlast]
        simpa [hjdate] using horder
    · rw [if_neg hcp] at ht
      exact invTrades t ht

theorem headD_mem_trades (l : List TradeRec) (h : l ≠ []) (d : TradeRec) :
    l.headD d ∈ l := by
  cases l with
  | nil => exact absurd rfl h
  | cons x xs => simp

/-!
### Trade generation of the second engine
(`BacktestEngine._generate_trades`, backtest_engine.py 148-196)

A simplified scan with a fixed position size of 100: it opens when flat
and the position turns nonzero, and closes — emitting a fully filled
record — when in a position and the position returns to zero or the last
bar is reached.  `entry_date`, `entry_price` and `entry_idx` are `None`
until a position is opened.
-/

/-- The loop state of `BacktestEngine._generate_trades`. -/
structure SimpleGenState where
  trades : List TradeRec
  inPosition : Bool
  entryDate : Option ℚ
  entryPrice : Option ℚ
  entryIdx : Option ℕ

/-- One iteration of `BacktestEngine._generate_trades` at bar `i`
(backtest_engine.py 165-194), with `n` the number of bars. -/
def simpleGenStep (symbol : String) (dates closes positions : List ℚ)
    (n i : ℕ) (st : SimpleGenState) : SimpleGenState :=
  if st.inPosition = false ∧ positions.getD i 0 ≠ 0 then
    { st with
      inPosition := true
      entryIdx := some i
      entryDate := some (dates.getD i 0)
      entryPrice := some (closes.getD i 0) }
  else if st.inPosition = true ∧ (positions.getD i 0 = 0 ∨ i = n - 1) then
    { st with
      inPosition := false
      trades := st.trades ++
        [{ symbol := symbol
           entry_date := st.entryDate.getD 0
           exit_date := some (dates.getD i 0)
           entry_price := st.entryPrice.getD 0
           exit_price := some (closes.getD i 0)
           position_size := 100
           pnl := some
             (if positions.getD (st.entryIdx.getD 0) 0 < 0 then
                -((closes.getD i 0 - st.entryPrice.getD 0) * 100)
              else (closes.getD i 0 - st.entryPrice.getD 0) * 100) }] }
  else st

/-- The state of `BacktestEngine._generate_trades` after bars `1..k`. -/
def simpleGenLoop (symbol : String) (dates closes positions : List ℚ)
    (n : ℕ) : ℕ → SimpleGenState
  | 0 =>
      { trades := [], inPosition := false, entryDate := none,
        entryPrice := none, entryIdx := none }
  | i + 1 =>
      simpleGenStep symbol dates closes positions n (i + 1)
        (simpleGenLoop symbol dates closes positions n i)

/-- `BacktestEngine._generate_trades`. -/
def simpleGenerateTrades (symbol : String)
    (dates closes positions : List ℚ) : List TradeRec :=
  (simpleGenLoop symbol dates closes positions positions.length
    (positions.length - 1)).trades

theorem simpleGenLoop_invariant (symbol : String)
    (dates closes positions : List ℚ)
    (hmono : ∀ i j : ℕ, i ≤ j → j < dates.length →
      dates.getD i 0 ≤ dates.getD j 0)
    (hlen : positions.length = dates.length) :
    ∀ k : ℕ, k < positions.length →
      (∀ t ∈ (simpleGenLoop symbol dates closes positions positions.length
          k).trades, tradeClosedOrdered t)
      ∧ ((simpleGenLoop symbol dates closes positions positions.length
            k).inPosition = true →
          ∃ j, j ≤ k ∧ j < positions.length ∧
            (simpleGenLoop symbol dates closes positions positions.length
              k).entryDate = some (dates.getD j 0)) := by
  intro k
  induction k with
  | zero =>
    intro _
    refine ⟨fun t ht => absurd ht (by simp [simpleGenLoop]), fun h => ?_⟩
    rw [simpleGenLoop] at h
    simp at h
  | succ k ih =>
    intro hk1
    have hk : k < positions.length := Nat.lt_of_succ_lt hk1
    obtain ⟨ihTrades, ihEntry⟩ := ih hk
    set st := simpleGenLoop symbol dates closes positions positions.length k
      with hst
    rw [simpleGenLoop, ← hst, simpleGenStep]
    by_cases hopen : st.inPosition = false ∧ positions.getD (k + 1) 0 ≠ 0
    · rw [if_pos hopen]
      exact ⟨ihTrades, fun _ => ⟨k + 1, le_refl _, hk1, rfl⟩⟩
    · rw [if_neg hopen]
      by_cases hclose : st.inPosition = true
          ∧ (positions.getD (k + 1) 0 = 0 ∨ k + 1 = positions.length - 1)
      · rw [if_pos hclose]
        refine ⟨?_, fun h => by simp at h⟩
        intro t ht
        rcases List.mem_append.1 ht with hmem | hmem
        · exact ihTrades t hmem
        · obtain ⟨j, hjk, hjn, hjdate⟩ := ihEntry hclose.1
          have horder : dates.getD j 0 ≤ dates.getD (k + 1) 0 :=
            hmono j (k + 1) (Nat.le_succ_of_le hjk) (hlen ▸ hk1)
          have ht' := List.mem_singleton.1 hmem
          subst ht'
          refine ⟨rfl, rfl, rfl, fun x hx => ?_⟩
          have hx' : x = dates.getD (k + 1) 0 := by simpa using hx.symm
          subst hx'
          simpa [hjdate] using horder
      · rw [if_neg hclose]
        refine ⟨ihTrades, fun h => ?_⟩
        obtain ⟨j, hjk, hjn, hjdate⟩ := ihEntry h
        exact ⟨j, Nat.le_succ_of_le hjk, hjn, hjdate⟩

/-- Trade closure for `BacktestEngine._generate_trades`. -/
theorem simpleGenerateTrades_closure :
    ∀ (symbol : String) (dates closes positions : List ℚ),
      (∀ i j : ℕ, i ≤ j → j < dates.length →
        dates.getD i 0 ≤ dates.getD j 0) →
      positions.length = dates.length →
      ∀ t ∈ simpleGenerateTrades symbol dates closes positions,
        tradeClosedOrdered t := by
  intro symbol dates closes positions hmono hlen t ht
  rw [simpleGenerateTrades] at ht
  by_cases hpos : positions = []
  · subst hpos
    simp [simpleGenLoop] at ht
  · have hn1 : positions.length - 1 < positions.length :=
      Nat.sub_lt (List.length_pos.2 hpos) Nat.one_pos
    exact (simpleGenLoop_invariant symbol dates closes positions hmono hlen
      (positions.length - 1) hn1).1 t ht

/-- C9: trade closure for both trade synthesizers.  Under monotone bar
timestamps, every trade emitted by `GPUBacktestEngine._generate_trades`
(including the force-close of a position still open at the final bar) and
every trade emitted by `BacktestEngine._generate_trades` (which closes an
open position when the last bar is reached) carries exit date, exit price
and pnl, with the exit date not earlier than the entry date — no trade is
left open. -/
theorem C9_trade_closure :
    (∀ (symbol : String) (dates closes positions : List ℚ)
        (initialCapital : ℚ) (spec : PositionSizeSpec)
        (commission slippage : ℚ),
      (∀ i j : ℕ, i ≤ j → j < dates.length →
        dates.getD i 0 ≤ dates.getD j 0) →
      positions.length = dates.length →
      ∀ t ∈ generateTrades symbol dates closes positions initialCapital spec
          commission slippage,
        tradeClosedOrdered t)
    ∧ (∀ (symbol : String) (dates closes positions : List ℚ),
      (∀ i j : ℕ, i ≤ j → j < dates.length →
        dates.getD i 0 ≤ dates.getD j 0) →
      positions.length = dates.length →
      ∀ t ∈ simpleGenerateTrades symbol dates closes positions,
        tradeClosedOrdered t) :=
  ⟨generateTrades_closure, simpleGenerateTrades_closure⟩

/-- C9, witness: the closure property of each synthesizer applied to a
concrete run with one round trip and a position still open at the last
bar. -/
theorem C9_trade_closure_witness :
    tradeClosedOrdered
      ((generateTrades "AAPL" [0, 1, 2, 3] [10, 10, 12, 13] [0, 1, 0, -1] 1000
          (PositionSizeSpec.fixedAmount 100) 0 0).headD default)
    ∧ tradeClosedOrdered
      ((simpleGenerateTrades "AAPL" [0, 1, 2, 3] [10, 10, 12, 13]
          [0, 1, 0, -1]).headD default) := by
  constructor
  · apply C9_trade_closure.1 "AAPL" [0, 1, 2, 3] [10, 10, 12, 13] [0, 1, 0, -1]
      1000 (PositionSizeSpec.fixedAmount 100) 0 0
    · intro i j hij hj
      have hj4 : j < 4 := by simpa using hj
      interval_cases j <;> interval_cases i <;> norm_num [List.getD]
    · norm_num
    · apply headD_mem_trades
      norm_num [generateTrades, generateTradesLoop, generateTradesStep, ratSign,
        resolvePositionSize, List.getD]
      simp
  · apply C9_trade_closure.2 "AAPL" [0, 1, 2, 3] [10, 10, 12, 13] [0, 1, 0, -1]
    · intro i j hij hj
      have hj4 : j < 4 := by simpa using hj
      interval_cases j <;> interval_cases i <;> norm_num [List.getD]
    · norm_num
    · apply headD_mem_trades
      norm_num [simpleGenerateTrades, simpleGenLoop, simpleGenStep, List.getD]
